import Mathlib

/-!
Verification development for the IRC client engine of the DeadHop repository
(`app/irc/manager.py`).  The Python code is shallowly embedded: every string
operation of the source is modelled by a structural, kernel-computable
function over `List Char`, Python dicts become insertion-ordered association
lists, Python sets become sorted duplicate-free lists (the source only
observes sets through membership, emptiness, union, intersection and
`sorted`), and the body of the reader loop becomes a pure step function
`IRCManager.handleLine` on an explicit state, returning the lines written to
the transport and the callback events fired for that incoming line.
-/

namespace DeadHop

/-! ## Python string primitives, char-level and kernel-computable -/

/-- First occurrence split: `breakSub sep l = some (a, b)` iff `l = a ++ sep ++ b`
with `a` minimal.  Models the split point used by Python `str.split(sep, 1)`,
`str.replace` and the `in` substring test. -/
def breakSub (sep : List Char) : List Char → Option (List Char × List Char)
  | [] => none
  | c :: cs =>
    if sep.isPrefixOf (c :: cs) then some ([], (c :: cs).drop sep.length)
    else match breakSub sep cs with
         | some (a, b) => some (c :: a, b)
         | none => none

/-- Python `s.split(sep, 1)` when the separator occurs (`none` otherwise). -/
def splitFirstS (sep s : String) : Option (String × String) :=
  match breakSub sep.data s.data with
  | some (a, b) => some (String.mk a, String.mk b)
  | none => none

/-- Python `sep in s` (substring containment). -/
def hasSub (s sep : String) : Bool := (breakSub sep.data s.data).isSome

/-- Python `s.split(sep, 1)[0]`: the part before the first occurrence, or all
of `s` when the separator does not occur. -/
def splitHead (sep s : String) : String :=
  match splitFirstS sep s with
  | some (a, _) => a
  | none => s

/-- Python `s.split(sep, 1)[1]` where the caller has ensured the separator
occurs; degrades to `""` otherwise. -/
def splitTail (sep s : String) : String :=
  match splitFirstS sep s with
  | some (_, b) => b
  | none => ""

/-- Fuelled worker for `pySplitOn`. -/
def splitAllF (sep : List Char) : Nat → List Char → List (List Char)
  | 0, l => [l]
  | fuel + 1, l =>
    match breakSub sep l with
    | some (a, b) => a :: splitAllF sep fuel b
    | none => [l]

/-- Python `s.split(sep)` with an explicit separator: splits on every
occurrence and keeps empty fields. -/
def pySplitOn (sep s : String) : List String :=
  (splitAllF sep.data (s.data.length + 1) s.data).map String.mk

/-- Worker for `pysplit`: split on whitespace runs, dropping empty fields. -/
def wsplitAux : List Char → List Char → List String
  | [], cur => if cur.isEmpty then [] else [String.mk cur.reverse]
  | c :: cs, cur =>
    if c.isWhitespace then
      if cur.isEmpty then wsplitAux cs [] else String.mk cur.reverse :: wsplitAux cs []
    else wsplitAux cs (c :: cur)

/-- Python `s.split()` (no argument): split on whitespace runs. -/
def pysplit (s : String) : List String := wsplitAux s.data []

/-- Python `s.strip()`. -/
def pyStrip (s : String) : String :=
  String.mk (((s.data.dropWhile Char.isWhitespace).reverse.dropWhile Char.isWhitespace).reverse)

/-- Python `raw.rstrip("\r\n")` applied by the reader loop to each line. -/
def rstripCRLF (s : String) : String :=
  String.mk ((s.data.reverse.dropWhile (fun c => c = '\r' ∨ c = '\n')).reverse)

/-- Python `s.upper()` (ASCII commands only in this protocol). -/
def pyUpper (s : String) : String := String.mk (s.data.map Char.toUpper)

/-- Python `s.startswith(pre)`. -/
def strStarts (s pre : String) : Bool := pre.data.isPrefixOf s.data

/-- Python `s.lstrip(":")`. -/
def lstripColon (s : String) : String := String.mk (s.data.dropWhile (· = ':'))

/-- Python `s[n:]`. -/
def strDrop (s : String) (n : Nat) : String := String.mk (s.data.drop n)

/-- Python `s.isdigit()` (ASCII digits). -/
def pyIsdigit (s : String) : Bool := !s.data.isEmpty && s.data.all Char.isDigit

/-- Python `int(s)` on a string that passed `isdigit`. -/
def pyToNat (s : String) : Nat :=
  s.data.foldl (fun n c => n * 10 + (c.toNat - '0'.toNat)) 0

/-- Python `sep.join(l)`. -/
def strJoin (sep : String) (l : List String) : String :=
  String.mk (List.intercalate sep.data (l.map String.data))

/-- Python `s.replace(pat, rep)` (all occurrences, left to right). -/
def pyReplace (s pat rep : String) : String :=
  String.mk (replaceAllF pat.data rep.data (s.data.length + 1) s.data)
where
  replaceAllF (pat rep : List Char) : Nat → List Char → List Char
    | 0, l => l
    | fuel + 1, l =>
      match breakSub pat l with
      | some (a, b) => a ++ rep ++ replaceAllF pat rep fuel b
      | none => l

/-- Lexicographic comparison on code points, as Python orders strings. -/
def chLt : List Char → List Char → Bool
  | [], [] => false
  | [], _ :: _ => true
  | _ :: _, [] => false
  | c :: cs, d :: ds => if c = d then chLt cs ds else decide (c < d)

/-- Python truthiness of an `Optional[str]`: `None` and `""` are falsy. -/
def truthyO : Option String → Bool
  | none => false
  | some s => !s.data.isEmpty

/-- Python `a or b` on strings. -/
def pyOr (a b : String) : String := if a.data.isEmpty then b else a

/-! ## Python sets, represented as sorted duplicate-free lists -/

/-- Insert into a sorted duplicate-free list. -/
def setInsert (x : String) : List String → List String
  | [] => [x]
  | y :: ys =>
    if x = y then y :: ys
    else if chLt x.data y.data then x :: y :: ys
    else y :: setInsert x ys

/-- Python `a.update(b)` on sets. -/
def setUnion (a : List String) (b : List String) : List String :=
  b.foldl (fun acc x => setInsert x acc) a

/-- Python `a.intersection(b)`; on sorted representations the result is
already what Python `sorted(a & b)` yields. -/
def setInter (a b : List String) : List String := a.filter (fun x => b.contains x)

/-! ## Python dicts, represented as insertion-ordered association lists -/

/-- Python `d[k] = v`: replace in place, or append a new key. -/
def dictSet {α : Type} (m : List (String × α)) (k : String) (v : α) : List (String × α) :=
  match m with
  | [] => [(k, v)]
  | kv :: rest => if kv.1 = k then (k, v) :: rest else kv :: dictSet rest k v

/-- Python `d.get(k)`. -/
def dictGet {α : Type} (m : List (String × α)) (k : String) : Option α :=
  match m.find? (fun kv => kv.1 == k) with
  | some kv => some kv.2
  | none => none

/-- Python `d.pop(k, default)` effect on the dict (keys are unique in the
dicts built here, so removing every binding of `k` is the same removal). -/
def dictPop {α : Type} (m : List (String × α)) (k : String) : List (String × α) :=
  m.filter (fun kv => kv.1 != k)

/-! ## Data model (from `app/irc/manager.py`) -/

/-- Connection profile, from the `ServerProfile` dataclass.  The Python field
`channels` defaults to `None`, which the code always reads through
`self.p.channels or []`; it is modelled as the plain list. -/
structure ServerProfile where
  name : String
  host : String
  port : Nat := 6697
  tls : Bool := true
  nick : String := "PeachUser"
  user : String := "peach"
  realname : String := "Peach Client"
  channels : List String := []
  password : Option String := none
  sasl_user : Option String := none
  ignore_invalid_certs : Bool := false
deriving DecidableEq, Repr

/-- Values stored in a WHOIS accumulator entry (Python stores strings,
optional ints, optional strings and string lists in the same dict). -/
inductive FVal where
  | str (v : String)
  | nat (v : Option Nat)
  | ostr (v : Option String)
  | strs (v : List String)
deriving DecidableEq, Repr

/-- Callback events fired to the consumer.  Each constructor is one of the
`on_*` callbacks of `IRCManager`; all callbacks are taken to be registered
and non-raising.  The wall-clock timestamp argument of `on_message` is
ambient time and is not modelled. -/
inductive Ev where
  | status (text : String)
  | message (nick target text : String) (tags : List (String × String))
  | names (ch : String) (nicks : List String)
  | joined (ch nick : String)
  | parted (ch nick : String)
  | quitted (nick : String)
  | nickChanged (oldNick newNick : String)
  | who (ch nick : String)
  | whoDetail (ch nick user host realname : String) (away : Bool)
  | modeUsers (ch : String) (changes : List (Bool × Char × String))
  | away (nick : String) (msg : Option String)
  | account (nick : String) (acct : Option String)
  | chghost (nick user host : String)
  | setname (nick realname : String)
  | labeled (lbl cmd params : String) (tags : List (String × String))
  | whois (nick : String) (info : List (String × FVal))
  | monOnline (nicks : List String)
  | monOffline (nicks : List String)
deriving DecidableEq, Repr

/-- Mutable negotiation / aggregation state of one `IRCManager` connection
(the `self._*` fields set in `__init__`). -/
structure St where
  stop : Bool
  cap_negotiating : Bool
  available_caps : List String
  requested_caps : List String
  active_caps : List String
  cap_ended : Bool
  welcome_received : Bool
  cap_ls_pending : Bool
  sasl_in_progress : Bool
  sasl_payload_sent : Bool
  batches : List (String × String)
  batch_names : List (String × List (String × List String))
  whois_buf : List (String × List (String × FVal))
deriving DecidableEq, Repr

/-- State right after `connect()` returned: the `__init__` defaults plus
`self._cap_negotiating = True` set by `connect`. -/
def initSt : St :=
  { stop := false
    cap_negotiating := true
    available_caps := []
    requested_caps := []
    active_caps := []
    cap_ended := false
    welcome_received := false
    cap_ls_pending := false
    sasl_in_progress := false
    sasl_payload_sent := false
    batches := []
    batch_names := []
    whois_buf := [] }

/-- Lines written by `connect()` before the reader loop starts. -/
def connectSends (p : ServerProfile) : List String :=
  ["CAP LS 302", "NICK " ++ p.nick, "USER " ++ (p.user ++ " 0 * :" ++ p.realname)]

/-! ## Capability negotiation and SASL (`_handle_cap`, `_end_cap`,
`_begin_sasl`, `_sasl_payload`, `_join_initial`) -/

/-- Base-64 alphabet. -/
def b64chars : List Char :=
  "ABCDEFGHIJKLMNOPQRSTUVWXYZabcdefghijklmnopqrstuvwxyz0123456789+/".data

/-- One base-64 digit. -/
def b64digit (n : Nat) : Char := b64chars.getD n 'A'

/-- Standard base-64 of a byte list, as `base64.b64encode` produces. -/
def b64encodeBytes : List Nat → List Char
  | [] => []
  | [a] => [b64digit (a / 4), b64digit (a % 4 * 16), '=', '=']
  | [a, b] => [b64digit (a / 4), b64digit (a % 4 * 16 + b / 16), b64digit (b % 16 * 4), '=']
  | a :: b :: c :: rest =>
    b64digit (a / 4) :: b64digit (a % 4 * 16 + b / 16) ::
      b64digit (b % 16 * 4 + c / 64) :: b64digit (c % 64) :: b64encodeBytes rest

/-- UTF-8 bytes of one character. -/
def utf8Bytes (c : Char) : List Nat :=
  let n := c.toNat
  if n < 0x80 then [n]
  else if n < 0x800 then [0xC0 + n / 64, 0x80 + n % 64]
  else if n < 0x10000 then [0xE0 + n / 4096, 0x80 + n / 64 % 64, 0x80 + n % 64]
  else [0xF0 + n / 262144, 0x80 + n / 4096 % 64, 0x80 + n / 64 % 64, 0x80 + n % 64]

/-- UTF-8 bytes of a string, as Python `str.encode()` yields. -/
def strBytes (s : String) : List Nat := (s.data.map utf8Bytes).flatten

/-- The `_sasl_payload` method: `AUTHENTICATE <base64(authzid NUL authcid NUL
password)>` with `authcid = sasl_user or user or nick`. -/
def sasl_payload (p : ServerProfile) : String :=
  let authzid := ""
  let authcid := pyOr (p.sasl_user.getD "") (pyOr p.user p.nick)
  let passwd := p.password.getD ""
  "AUTHENTICATE " ++
    String.mk (b64encodeBytes (strBytes (authzid ++ "\x00" ++ authcid ++ "\x00" ++ passwd)))

/-- The `want` set of `_handle_cap`, written in sorted-set representation;
`"sasl"` is added exactly when `self.p.password` is truthy. -/
def capWant (p : ServerProfile) : List String :=
  let want := ["account-notify", "away-notify", "batch", "chghost", "echo-message",
               "labeled-response", "message-tags", "multi-prefix", "server-time", "setname"]
  if truthyO p.password then setInsert "sasl" want else want

/-- The `_join_initial` method: a `JOIN` line per configured channel. -/
def join_initial (p : ServerProfile) : List String :=
  p.channels.map (fun ch => "JOIN " ++ ch)

/-- The `_end_cap` method: sends `CAP END` only when not already ended, then
joins the initial channels if the 001 welcome was already seen. -/
def end_cap (p : ServerProfile) (s : St) : St × List String × List Ev :=
  if s.cap_ended then (s, [], [])
  else
    let s := { s with cap_ended := true }
    if s.welcome_received then (s, "CAP END" :: join_initial p, [])
    else (s, ["CAP END"], [])

/-- The `_begin_sasl` method.  Its `try/except` wrapper cannot fire here
because the modelled `_send` never raises. -/
def begin_sasl (s : St) : St × List String × List Ev :=
  ({ s with sasl_in_progress := true, sasl_payload_sent := false }, ["AUTHENTICATE PLAIN"], [])

/-- The `_handle_cap` method. -/
def handle_cap (p : ServerProfile) (s : St) (subcmd payload : String) :
    St × List String × List Ev :=
  if subcmd = "LS" then
    let caps := pysplit payload
    let s := { s with available_caps := setUnion s.available_caps caps }
    let s := if ¬s.cap_ls_pending ∧ s.requested_caps = [] then
               { s with cap_ls_pending := true } else s
    let req := setInter (capWant p) s.available_caps
    if req ≠ [] ∧ s.requested_caps = [] then
      ({ s with requested_caps := setUnion s.requested_caps req },
       ["CAP REQ :" ++ strJoin " " req], [])
    else if req = [] then end_cap p s
    else (s, [], [])
  else if subcmd = "ACK" then
    let acks := pysplit payload
    let s := { s with active_caps := setUnion s.active_caps acks }
    if acks.contains "sasl" ∧ truthyO p.password then begin_sasl s
    else end_cap p s
  else if subcmd = "NAK" then end_cap p s
  else (s, [], [])

/-! ## Reader-loop branch handlers -/

/-- The MONITOR 730 handler body. -/
def mon730 (rest : String) : List Ev :=
  let payload := if hasSub rest " :" then splitTail " :" rest else ""
  let nicks := (if payload.data.isEmpty then [] else pySplitOn "," payload).filterMap
      (fun item =>
        let n := pyStrip (splitHead "!" item)
        if n.data.isEmpty then none else some n)
  if nicks.isEmpty then [] else [Ev.monOnline nicks]

/-- The MONITOR 731 handler body. -/
def mon731 (rest : String) : List Ev :=
  let payload := if hasSub rest " :" then splitTail " :" rest else ""
  let nicks := (if payload.data.isEmpty then [] else pySplitOn "," payload).filterMap
      (fun item =>
        let n := pyStrip (splitHead "!" item)
        if n.data.isEmpty then none else some n)
  if nicks.isEmpty then [] else [Ev.monOffline nicks]

/-- Python `s.split(" ", 2)[-1]`. -/
def pySplit2Last (s : String) : String :=
  match pySplitOn " " s with
  | [] => s
  | [a] => a
  | [_, b] => b
  | _ :: _ :: rest => strJoin " " rest

/-- The mode-letter walk of the channel MODE handler. -/
def modeWalk : List Char → List String → Option Bool → List (Bool × Char × String)
  | [], _, _ => []
  | c :: cs, args, add =>
    if c = '+' then modeWalk cs args (some true)
    else if c = '-' then modeWalk cs args (some false)
    else if (c = 'q' ∨ c = 'a' ∨ c = 'o' ∨ c = 'h' ∨ c = 'v') ∧ args ≠ [] then
      (add.getD false, c, args.headD "") :: modeWalk cs args.tail add
    else modeWalk cs args add

/-- The channel MODE handler body. -/
def modeEv (rest_line params : String) : List Ev :=
  let parts2 := pysplit params
  let ch := parts2.headD ""
  if ¬(strStarts ch "#" ∨ strStarts ch "&") then []
  else
    match pysplit (pySplit2Last (splitHead " :" rest_line)) with
    | [] => []
    | mode_seq :: args =>
      let changes := modeWalk mode_seq.data args none
      if changes.isEmpty then [] else [Ev.modeUsers ch changes]

/-- The AWAY handler body. -/
def awayEv (pfx rest_line : String) : List Ev :=
  let msg := if hasSub rest_line " :" then some (splitTail " :" rest_line) else none
  [Ev.away (splitHead "!" pfx) msg]

/-- The ACCOUNT handler body. -/
def accountEv (pfx params : String) : List Ev :=
  let acct := pyStrip params
  [Ev.account (splitHead "!" pfx) (if acct = "*" ∨ acct = "0" then none else some acct)]

/-- The WHO 352 handler body (on_who_detail taken as registered). -/
def who352 (rest : String) : List Ev :=
  let parts2 := pysplit rest
  if parts2.length < 7 then []
  else
    let ch := parts2.getD 1 ""
    let user := parts2.getD 2 ""
    let host := parts2.getD 3 ""
    let nick := parts2.getD 5 ""
    let flags := parts2.getD 6 ""
    let away := flags.data.contains 'G' && !(flags.data.contains 'H')
    let rn := if hasSub rest " :" then splitTail " :" rest else ""
    let realname :=
      if ¬rn.data.isEmpty ∧ pyIsdigit (splitHead " " rn) ∧ hasSub rn " " then splitTail " " rn
      else rn
    [Ev.whoDetail ch nick user host realname away]

/-- The WHOX 354 handler body. -/
def who354 (rest : String) : List Ev :=
  let parts2 := pysplit rest
  if parts2.length < 2 then []
  else
    let ch :=
      if parts2.length > 3 ∧
          (strStarts (parts2.getD 2 "") "#" ∨ strStarts (parts2.getD 2 "") "&") then
        parts2.getD 2 ""
      else parts2.getD 1 ""
    let nick0 := (parts2.getLast?).getD ""
    let nick := if strStarts nick0 ":" ∧ parts2.length > 3 then
                  parts2.getD (parts2.length - 2) ""
                else nick0
    [Ev.who ch (lstripColon nick)]

/-- Merge a field list into one accumulator entry (Python `dict.update`). -/
def wbInfoUpdate (info : List (String × FVal)) (kvs : List (String × FVal)) :
    List (String × FVal) :=
  kvs.foldl (fun m kv => dictSet m kv.1 kv.2) info

/-- Python `self._whois_buf.setdefault(nick, {})` followed by `st.update(kvs)`. -/
def wbUpdate (buf : List (String × List (String × FVal))) (nick : String)
    (kvs : List (String × FVal)) : List (String × List (String × FVal)) :=
  match buf with
  | [] => [(nick, wbInfoUpdate [] kvs)]
  | kv :: rest =>
    if kv.1 = nick then (kv.1, wbInfoUpdate kv.2 kvs) :: rest
    else kv :: wbUpdate rest nick kvs

/-- The 311 RPL_WHOISUSER handler body. -/
def whois311 (s : St) (rest : String) : St :=
  let parts2 := pysplit rest
  if parts2.length < 4 then s
  else
    let nick := parts2.getD 1 ""
    let user := parts2.getD 2 ""
    let host := parts2.getD 3 ""
    let realname := if hasSub rest " :" then splitTail " :" rest else ""
    { s with whois_buf := (wbUpdate s.whois_buf nick
        [("user", FVal.str user), ("host", FVal.str host), ("realname", FVal.str realname)]) }

/-- The 312 RPL_WHOISSERVER handler body. -/
def whois312 (s : St) (rest : String) : St :=
  let parts2 := pysplit rest
  if parts2.length < 3 then s
  else
    let nick := parts2.getD 1 ""
    let server := parts2.getD 2 ""
    let info := if hasSub rest " :" then splitTail " :" rest else ""
    { s with whois_buf := (wbUpdate s.whois_buf nick
        [("server", FVal.str server), ("server_info", FVal.str info)]) }

/-- The 317 RPL_WHOISIDLE handler body. -/
def whois317 (s : St) (rest : String) : St :=
  let parts2 := pysplit rest
  if parts2.length < 2 then s
  else
    let nick := parts2.getD 1 ""
    let idle := if parts2.length > 2 ∧ pyIsdigit (parts2.getD 2 "") then
                  some (pyToNat (parts2.getD 2 "")) else none
    let signon := if parts2.length > 3 ∧ pyIsdigit (parts2.getD 3 "") then
                    some (pyToNat (parts2.getD 3 "")) else none
    { s with whois_buf := (wbUpdate s.whois_buf nick
        [("idle", FVal.nat idle), ("signon", FVal.nat signon)]) }

/-- The 319 RPL_WHOISCHANNELS handler body. -/
def whois319 (s : St) (rest : String) : St :=
  let parts2 := pysplit rest
  if parts2.length < 2 then s
  else
    let nick := parts2.getD 1 ""
    let chans := if hasSub rest " :" then pysplit (splitTail " :" rest) else []
    { s with whois_buf := wbUpdate s.whois_buf nick [("channels", FVal.strs chans)] }

/-- The 330 RPL_WHOISACCOUNT handler body. -/
def whois330 (s : St) (rest : String) : St :=
  let parts2 := pysplit rest
  if parts2.length < 2 then s
  else
    let nick := parts2.getD 1 ""
    let account := if parts2.length > 2 then some (parts2.getD 2 "") else none
    { s with whois_buf := wbUpdate s.whois_buf nick [("account", FVal.ostr account)] }

/-- The 338 RPL_WHOISACTUALLY handler body. -/
def whois338 (s : St) (rest : String) : St :=
  let parts2 := pysplit rest
  if parts2.length < 2 then s
  else
    let nick := parts2.getD 1 ""
    let extra := if hasSub rest " :" then splitTail " :" rest else ""
    { s with whois_buf := wbUpdate s.whois_buf nick [("actually", FVal.str extra)] }

/-- The 318 RPL_ENDOFWHOIS handler body: pop the accumulator entry (defaulting
to the empty map) and emit the aggregated whois event. -/
def whois318 (s : St) (rest : String) : St × List Ev :=
  let parts2 := pysplit rest
  if parts2.length < 2 then (s, [])
  else
    let nick := parts2.getD 1 ""
    let st := (dictGet s.whois_buf nick).getD []
    ({ s with whois_buf := dictPop s.whois_buf nick }, [Ev.whois nick st])

/-- The PRIVMSG handler events (both message callbacks modelled as one
event; the wall-clock/server-time timestamp is ambient and not modelled). -/
def privmsgEvs (pfx rest_line params : String) (tags : List (String × String)) : List Ev :=
  let target := splitHead " " params
  let text := splitTail " :" rest_line
  let nick := if hasSub pfx "!" then splitHead "!" pfx else pfx
  [Ev.message nick target text tags]

/-- The JOIN handler events. -/
def joinEvs (pfx rest_line params : String) : List Ev :=
  let ch := if hasSub rest_line " :" then splitTail " :" rest_line else params
  [Ev.joined ch (splitHead "!" pfx)]

/-- The PART handler events. -/
def partEvs (pfx params : String) : List Ev :=
  [Ev.parted (splitHead " " params) (splitHead "!" pfx)]

/-- The QUIT handler events. -/
def quitEvs (pfx : String) : List Ev := [Ev.quitted (splitHead "!" pfx)]

/-- The NICK handler events. -/
def nickEvs (pfx rest params : String) : List Ev :=
  let newnick := if hasSub rest " :" then splitTail " :" rest else params
  [Ev.nickChanged (splitHead "!" pfx) newnick]

/-- The CHGHOST handler events. -/
def chghostEvs (pfx params : String) : List Ev :=
  let parts2 := pysplit params
  [Ev.chghost (splitHead "!" pfx) (parts2.getD 0 "") (parts2.getD 1 "")]

/-- The SETNAME handler events. -/
def setnameEvs (pfx rest params : String) : List Ev :=
  let rn := if hasSub rest " :" then splitTail " :" rest else params
  [Ev.setname (splitHead "!" pfx) rn]

/-- Python `bychan.setdefault(ch, []).extend(names)`: extend an existing
channel entry in place, or append a new one. -/
def bnAddInner (bychan : List (String × List String)) (ch : String) (names : List String) :
    List (String × List String) :=
  match bychan with
  | [] => [(ch, names)]
  | kv :: rest =>
    if kv.1 = ch then (kv.1, kv.2 ++ names) :: rest else kv :: bnAddInner rest ch names

/-- Python `self._batch_names.setdefault(bid, {})` followed by the inner
setdefault-extend. -/
def bnAdd (bn : List (String × List (String × List String))) (bid ch : String)
    (names : List String) : List (String × List (String × List String)) :=
  match bn with
  | [] => [(bid, bnAddInner [] ch names)]
  | kv :: rest =>
    if kv.1 = bid then (kv.1, bnAddInner kv.2 ch names) :: rest else kv :: bnAdd rest bid ch names

/-- Python `self._batch_names.setdefault(bid, {})` used alone (BATCH open). -/
def bnEnsure (bn : List (String × List (String × List String))) (bid : String) :
    List (String × List (String × List String)) :=
  if (dictGet bn bid).isSome then bn else bn ++ [(bid, [])]

/-- Flush of one batch context: one names event per channel with a non-empty
buffered list, in dict (first-insertion) order. -/
def batchFlush (bychan : List (String × List String)) : List Ev :=
  bychan.filterMap (fun kv => if kv.2.isEmpty then none else some (Ev.names kv.1 kv.2))

/-- The BATCH open/close handler body. -/
def batchLine (s : St) (params : String) : St × List Ev :=
  match pysplit params with
  | [] => (s, [])
  | ident :: tok =>
    if strStarts ident "+" then
      let bid := strDrop ident 1
      let btype := tok.headD ""
      ({ s with batches := dictSet s.batches bid btype,
                batch_names := bnEnsure s.batch_names bid }, [])
    else if strStarts ident "-" then
      let bid := strDrop ident 1
      let evs := match dictGet s.batch_names bid with
                 | some bychan => batchFlush bychan
                 | none => []
      ({ s with batch_names := dictPop s.batch_names bid,
                batches := dictPop s.batches bid }, evs)
    else (s, [])

/-- The NAMES 353 handler body: buffer into the batch context when a `batch`
tag is present, emit immediately otherwise. -/
def names353 (s : St) (tags : List (String × String)) (rest : String) : St × List Ev :=
  let left := pysplit (splitHead " :" rest)
  match left.getLast? with
  | none => (s, [])
  | some ch =>
    let nicksList := if hasSub rest " :" then pysplit (splitTail " :" rest) else []
    match dictGet tags "batch" with
    | some bid =>
      if bid.data.isEmpty then (s, [Ev.names ch nicksList])
      else ({ s with batch_names := bnAdd s.batch_names bid ch nicksList }, [])
    | none => (s, [Ev.names ch nicksList])

/-! ## Line decoding and the reader-loop step -/

/-- IRCv3 tag value unescaping. -/
def unescapeTag (v : String) : String :=
  pyReplace (pyReplace (pyReplace (pyReplace v "\\:" ";") "\\s" " ") "\\r" "\r") "\\n" "\n"

/-- The tag block parser of the reader loop. -/
def parseTags (tag_str : String) : List (String × String) :=
  (pySplitOn ";" tag_str).foldl
    (fun d part =>
      match splitFirstS "=" part with
      | some (k, v) => dictSet d k (unescapeTag v)
      | none => dictSet d part (unescapeTag ""))
    []

/-- Split the optional leading `@tags ` block off a raw line. -/
def tagSplit (raw : String) : List (String × String) × String :=
  if strStarts raw "@" then
    match splitFirstS " " (strDrop raw 1) with
    | some (tag_str, r) => (parseTags tag_str, r)
    | none => ([], raw)
  else ([], raw)

/-- Split the optional leading `:prefix ` block. -/
def prefixSplit (rest_line : String) : String × String :=
  if strStarts rest_line ":" then
    match splitFirstS " " (strDrop rest_line 1) with
    | some pr => pr
    | none => (strDrop rest_line 1, "")
  else ("", rest_line)

/-- Discriminator naming each branch of the reader loop situated after the
labeled-response passthrough. -/
inductive BCase where
  | cap | welcome | w311 | w312 | w317 | w319 | w330 | w338 | w318
  | auth | saslRes | privmsg | joinB | partB | quitB | nickB | chghostB
  | setnameB | batchB | names | other
deriving DecidableEq, Repr

/-- The branch conditions of the post-label dispatch, verbatim and in source
order (`privTrail` is the PRIVMSG guard `" :" in rest_line`). -/
def routeB (cmd ucmd : String) (privTrail : Bool) : BCase :=
  if cmd = "CAP" then BCase.cap
  else if cmd = "001" then BCase.welcome
  else if cmd = "311" then BCase.w311
  else if cmd = "312" then BCase.w312
  else if cmd = "317" then BCase.w317
  else if cmd = "319" then BCase.w319
  else if cmd = "330" then BCase.w330
  else if cmd = "338" then BCase.w338
  else if cmd = "318" then BCase.w318
  else if cmd = "AUTHENTICATE" then BCase.auth
  else if cmd = "903" ∨ cmd = "904" ∨ cmd = "905" ∨ cmd = "906" ∨ cmd = "907" then
    BCase.saslRes
  else if ucmd = "PRIVMSG" ∧ privTrail then BCase.privmsg
  else if ucmd = "JOIN" then BCase.joinB
  else if ucmd = "PART" then BCase.partB
  else if ucmd = "QUIT" then BCase.quitB
  else if ucmd = "NICK" then BCase.nickB
  else if ucmd = "CHGHOST" then BCase.chghostB
  else if ucmd = "SETNAME" then BCase.setnameB
  else if ucmd = "BATCH" then BCase.batchB
  else if cmd = "353" then BCase.names
  else BCase.other

/-- Branches of the reader loop situated after the labeled-response
passthrough, in source order. -/
def dispatchB (p : ServerProfile) (s : St) (tags : List (String × String))
    (pfx rest_line rest : String) (parts : List String) (cmd params ucmd : String) :
    St × List String × List Ev :=
  match routeB cmd ucmd (hasSub rest_line " :") with
  | BCase.cap =>
    let subcmd := parts.getD 2 ""
    let payload := if hasSub rest " :" then splitTail " :" rest else ""
    handle_cap p s (pyUpper subcmd) payload
  | BCase.welcome =>
    let s := { s with welcome_received := true }
    if ¬s.cap_negotiating ∨ s.cap_ended then
      (s, join_initial p, [Ev.status "001 welcome received"])
    else (s, [], [Ev.status "001 welcome received"])
  | BCase.w311 => (whois311 s rest, [], [])
  | BCase.w312 => (whois312 s rest, [], [])
  | BCase.w317 => (whois317 s rest, [], [])
  | BCase.w319 => (whois319 s rest, [], [])
  | BCase.w330 => (whois330 s rest, [], [])
  | BCase.w338 => (whois338 s rest, [], [])
  | BCase.w318 =>
    let r := whois318 s rest
    (r.1, [], r.2)
  | BCase.auth =>
    if pyStrip params = "+" ∧ s.sasl_in_progress ∧ ¬s.sasl_payload_sent then
      ({ s with sasl_payload_sent := true }, [sasl_payload p],
       [Ev.status "SASL server requested payload (+)"])
    else (s, [], [])
  | BCase.saslRes =>
    let s := { s with sasl_in_progress := false }
    let r := end_cap p s
    (r.1, r.2.1, Ev.status ("SASL result " ++ cmd) :: r.2.2)
  | BCase.privmsg => (s, [], privmsgEvs pfx rest_line params tags)
  | BCase.joinB => (s, [], joinEvs pfx rest_line params)
  | BCase.partB => (s, [], partEvs pfx params)
  | BCase.quitB => (s, [], quitEvs pfx)
  | BCase.nickB => (s, [], nickEvs pfx rest params)
  | BCase.chghostB => (s, [], chghostEvs pfx params)
  | BCase.setnameB => (s, [], setnameEvs pfx rest params)
  | BCase.batchB =>
    let r := batchLine s params
    (r.1, [], r.2)
  | BCase.names =>
    let r := names353 s tags rest
    (r.1, [], r.2)
  | BCase.other => (s, [], [])

/-- Discriminator naming each branch of the reader loop situated before the
labeled-response passthrough. -/
inductive ACase where
  | m730 | m731 | mode | away | account | who | whox | fall
deriving DecidableEq, Repr

/-- The branch conditions of the pre-label dispatch, verbatim and in source
order. -/
def routeA (cmd ucmd : String) : ACase :=
  if cmd = "730" then ACase.m730
  else if cmd = "731" then ACase.m731
  else if ucmd = "MODE" then ACase.mode
  else if ucmd = "AWAY" then ACase.away
  else if ucmd = "ACCOUNT" then ACase.account
  else if cmd = "352" then ACase.who
  else if cmd = "354" then ACase.whox
  else ACase.fall

/-- Branches of the reader loop situated before the labeled-response
passthrough, in source order, falling through to `dispatchB` with the
labeled event prepended. -/
def dispatchA (p : ServerProfile) (s : St) (tags : List (String × String))
    (pfx rest_line rest : String) (parts : List String) (cmd params ucmd : String) :
    St × List String × List Ev :=
  match routeA cmd ucmd with
  | ACase.m730 => (s, [], mon730 rest)
  | ACase.m731 => (s, [], mon731 rest)
  | ACase.mode => (s, [], modeEv rest_line params)
  | ACase.away => (s, [], awayEv pfx rest_line)
  | ACase.account => (s, [], accountEv pfx params)
  | ACase.who => (s, [], who352 rest)
  | ACase.whox => (s, [], who354 rest)
  | ACase.fall =>
    let lblEvs := match dictGet tags "label" with
      | some l => if l.data.isEmpty then [] else [Ev.labeled l cmd params tags]
      | none => []
    let r := dispatchB p s tags pfx rest_line rest parts cmd params ucmd
    (r.1, r.2.1, lblEvs ++ r.2.2)

/-- One iteration of `_reader_loop` on a decoded incoming line: returns the
next state, the lines written to the transport, and the events fired.  The
`debug` flag is `False` (its default), so the raw-echo status calls are
skipped.  Note the PONG reply takes its payload from `raw`, not from the
tag-stripped `rest_line` (source line 170). -/
def handleLine (p : ServerProfile) (s : St) (line : String) : St × List String × List Ev :=
  let raw := rstripCRLF line
  let tr := tagSplit raw
  let tags := tr.1
  let rest_line := tr.2
  if strStarts rest_line "PING " then (s, ["PONG " ++ splitTail " " raw], [])
  else
    let pr := prefixSplit rest_line
    let rest := pr.2
    let parts := if rest = "" then [] else pySplitOn " " rest
    let cmd := parts.headD ""
    dispatchA p s tags pr.1 rest_line rest parts cmd (strJoin " " parts.tail) (pyUpper cmd)

/-- Accumulated observation of a run: final state, every line written to the
transport (in order), every event fired (in order). -/
structure Out where
  st : St
  sent : List String
  evs : List Ev
deriving DecidableEq, Repr

/-- Process one incoming line, accumulating output. -/
def stepLine (p : ServerProfile) (o : Out) (line : String) : Out :=
  let r := handleLine p o.st line
  { st := r.1, sent := o.sent ++ r.2.1, evs := o.evs ++ r.2.2 }

/-- Process a list of incoming lines from an arbitrary accumulated state. -/
def runFrom (p : ServerProfile) (o : Out) (lines : List String) : Out :=
  lines.foldl (stepLine p) o

/-- A full post-`connect()` run over a sequence of incoming lines. -/
def runLines (p : ServerProfile) (lines : List String) : Out :=
  runFrom p { st := initSt, sent := connectSends p, evs := [] } lines

/-! ## Command API (`join`, `part`, `set_topic`, `set_modes`,
`send_privmsg`): the wire lines each call passes to `_send`. -/

/-- The `join` method. -/
def join_cmd (channel : String) : List String :=
  let ch := pyStrip channel
  if ch.data.isEmpty then [] else ["JOIN " ++ ch]

/-- The `part` method (`reason` falsy means no reason suffix). -/
def part_cmd (channel : String) (reason : Option String) : List String :=
  let ch := pyStrip channel
  if ch.data.isEmpty then []
  else if truthyO reason then ["PART " ++ ch ++ " :" ++ reason.getD ""]
  else ["PART " ++ ch]

/-- The `set_topic` method. -/
def set_topic_cmd (channel topic : String) : List String :=
  ["TOPIC " ++ pyStrip channel ++ " :" ++ topic]

/-- The `set_modes` method. -/
def set_modes_cmd (channel modes : String) : List String :=
  ["MODE " ++ pyStrip channel ++ " " ++ modes]

/-- The `send_privmsg` method. -/
def send_privmsg_cmd (target text : String) : List String :=
  ["PRIVMSG " ++ target ++ " :" ++ text]

/-! ## The `close()` path.  `close` keeps the `self.writer` reference after
closing it, so a second call reaches `_send` again; per asyncio transport
semantics a `write` on a closed transport discards the bytes (nothing
reaches the wire) and the following `drain` raises `ConnectionResetError`,
which the `try/except` inside `close` swallows.  `writer.close()` and the
guarded `wait_closed()` do not propagate exceptions. -/

/-- Transport-facing connection state: `writerLive = none` models
`self.writer is None`, `some true` an open writer, `some false` a closed
one; `wire` is the list of lines that actually reached the network. -/
structure ConnSt where
  stop : Bool
  writerLive : Option Bool
  wire : List String
deriving DecidableEq, Repr

/-- The `_send` method at transport level: no-op without a writer; a write
on a closed transport is discarded and its `drain` raises. -/
def sendW (s : ConnSt) (line : String) : Except String ConnSt :=
  match s.writerLive with
  | none => Except.ok s
  | some true => Except.ok { s with wire := s.wire ++ [line] }
  | some false => Except.error "ConnectionResetError"

/-- The `close` method: set the stop flag, best-effort `QUIT` (exceptions
swallowed), close the writer when present (its errors swallowed). -/
def close (s : ConnSt) : Except String ConnSt :=
  let s := { s with stop := true }
  let s := match sendW s "QUIT :bye" with
           | Except.ok s2 => s2
           | Except.error _ => s
  match s.writerLive with
  | none => Except.ok s
  | some _ => Except.ok { s with writerLive := some false }

/-! ## Proof-side definitions: recognizers, potentials, reference sets, profiles -/

/-- Potential tracking whether a `CAP END` emission is still possible. -/
def capEndPot (s : St) : Nat := if s.cap_ended then 0 else 1

/-- The concrete profile used for concrete runs. -/
def pBase : ServerProfile := { name := "local", host := "example.org", channels := ["#test"] }

/-- The concrete profile with a password, used for SASL runs. -/
def pPw : ServerProfile := { pBase with password := some "pw" }

/-- Recognizer for `CAP REQ` wire lines. -/
def isCapReqLine (l : String) : Bool := "CAP REQ :".data.isPrefixOf l.data

/-- Potential tracking whether a `CAP REQ` emission is still possible. -/
def reqPot (s : St) : Nat := if s.requested_caps = [] then 1 else 0

/-- The desired capability set as the specification words it: the ten base
capabilities, plus `"sasl"` iff a password or a sasl_user is configured.
Reference definition for claim C2 only; the source computes `capWant`. -/
def specDesired (p : ServerProfile) : List String :=
  let base := ["account-notify", "away-notify", "batch", "chghost", "echo-message",
               "labeled-response", "message-tags", "multi-prefix", "server-time", "setname"]
  if truthyO p.password || truthyO p.sasl_user then setInsert "sasl" base else base

/-- Profile that configures a sasl_user but no password. -/
def pSasl : ServerProfile :=
  { name := "local", host := "example.org", channels := ["#test"], sasl_user := some "u" }

/-- Recognizer for incoming lines that decode — through the same pipeline
and branch conditions as the reader loop — to a `CAP ... ACK` whose payload
contains the token `sasl`. -/
def capAckSasl (line : String) : Bool :=
  let raw := rstripCRLF line
  let tr := tagSplit raw
  let rest_line := tr.2
  if strStarts rest_line "PING " then false
  else
    let pr := prefixSplit rest_line
    let rest := pr.2
    let parts := if rest = "" then [] else pySplitOn " " rest
    let cmd := parts.headD ""
    match routeA cmd (pyUpper cmd) with
    | ACase.fall =>
      match routeB cmd (pyUpper cmd) (hasSub rest_line " :") with
      | BCase.cap =>
        if pyUpper (parts.getD 2 "") = "ACK" then
          (pysplit (if hasSub rest " :" then splitTail " :" rest else "")).contains "sasl"
        else false
      | _ => false
    | _ => false

/-- The qualifying fact a SASL start certifies at the `handle_cap` level. -/
def ackSaslFact (p : ServerProfile) (subcmd payload : String) : Prop :=
  subcmd = "ACK" ∧ (pysplit payload).contains "sasl" = true ∧ truthyO p.password = true

/-- Recognizer for names events of a given channel. -/
def isNamesOf (ch : String) : Ev → Bool
  | Ev.names c _ => c == ch
  | _ => false

/-- Recognizer for initial `JOIN` wire lines. -/
def isJoinLine (l : String) : Bool := "JOIN ".data.isPrefixOf l.data

/-! ## Helper lemmas: discriminating the wire lines the engine can emit -/

/-- Strings with different head characters differ. -/
lemma ne_of_front {x y : String} {c d : Char} {cs ds : List Char}
    (hx : x.data = c :: cs) (hy : y.data = d :: ds) (h : c ≠ d) : x ≠ y := by
  intro e
  subst e
  have h2 := hx.symm.trans hy
  injection h2 with h3 _
  exact h h3

/-- Character data of a literal-prefixed concatenation, in cons form. -/
lemma append_data_cons {pre : String} {c : Char} {cs : List Char} (x : String)
    (h : pre.data = c :: cs) : (pre ++ x).data = c :: (cs ++ x.data) := by
  rw [String.data_append, h]
  rfl

lemma pong_ne_capEnd (x : String) : "PONG " ++ x ≠ "CAP END" :=
  ne_of_front (append_data_cons x rfl) rfl (by decide)

lemma joinLine_ne_capEnd (ch : String) : "JOIN " ++ ch ≠ "CAP END" :=
  ne_of_front (append_data_cons ch rfl) rfl (by decide)

lemma nickLine_ne_capEnd (x : String) : "NICK " ++ x ≠ "CAP END" :=
  ne_of_front (append_data_cons x rfl) rfl (by decide)

lemma userLine_ne_capEnd (x : String) : "USER " ++ x ≠ "CAP END" :=
  ne_of_front (append_data_cons x rfl) rfl (by decide)

lemma authLine_ne_capEnd (x : String) : "AUTHENTICATE " ++ x ≠ "CAP END" := by
  intro e
  have h2 : ("AUTHENTICATE " ++ x).data.length = 13 + x.data.length := by
    rw [String.data_append, List.length_append,
        show "AUTHENTICATE ".data.length = 13 from rfl]
  rw [e, show "CAP END".data.length = 7 from rfl] at h2
  omega

lemma capReqLine_ne_capEnd (x : String) : "CAP REQ :" ++ x ≠ "CAP END" := by
  intro e
  have h2 : ("CAP REQ :" ++ x).data.length = 9 + x.data.length := by
    rw [String.data_append, List.length_append,
        show "CAP REQ :".data.length = 9 from rfl]
  rw [e, show "CAP END".data.length = 7 from rfl] at h2
  omega

/-- The SASL payload line is an `AUTHENTICATE `-prefixed concatenation. -/
lemma sasl_payload_shape (p : ServerProfile) :
    ∃ r, sasl_payload p = "AUTHENTICATE " ++ r := ⟨_, rfl⟩

lemma sasl_payload_ne_capEnd (p : ServerProfile) : sasl_payload p ≠ "CAP END" := by
  obtain ⟨r, hr⟩ := sasl_payload_shape p
  rw [hr]
  exact authLine_ne_capEnd r

/-- Nothing among the initial JOIN lines is a `CAP END`. -/
lemma join_initial_count_capEnd (p : ServerProfile) :
    (join_initial p).count "CAP END" = 0 := by
  rw [List.count_eq_zero]
  unfold join_initial
  intro hmem
  obtain ⟨ch, _, he⟩ := List.mem_map.mp hmem
  exact joinLine_ne_capEnd ch he

/-! ## Claim C1 machinery: `CAP END` is emitted at most once -/


lemma end_cap_capEnd (p : ServerProfile) (s : St) :
    (end_cap p s).2.1.count "CAP END" + capEndPot (end_cap p s).1 ≤ capEndPot s := by
  unfold end_cap
  by_cases h1 : s.cap_ended
  · simp [h1, capEndPot]
  · by_cases h2 : s.welcome_received <;>
      simp [h1, h2, capEndPot, List.count_cons, join_initial_count_capEnd]

lemma whois311_shape (s : St) (rest : String) :
    ∃ w, whois311 s rest = { s with whois_buf := w } := by
  simp only [whois311]
  split
  · exact ⟨s.whois_buf, rfl⟩
  · exact ⟨_, rfl⟩

lemma whois312_shape (s : St) (rest : String) :
    ∃ w, whois312 s rest = { s with whois_buf := w } := by
  simp only [whois312]
  split
  · exact ⟨s.whois_buf, rfl⟩
  · exact ⟨_, rfl⟩

lemma whois317_shape (s : St) (rest : String) :
    ∃ w, whois317 s rest = { s with whois_buf := w } := by
  simp only [whois317]
  split
  · exact ⟨s.whois_buf, rfl⟩
  · exact ⟨_, rfl⟩

lemma whois319_shape (s : St) (rest : String) :
    ∃ w, whois319 s rest = { s with whois_buf := w } := by
  simp only [whois319]
  split
  · exact ⟨s.whois_buf, rfl⟩
  · exact ⟨_, rfl⟩

lemma whois330_shape (s : St) (rest : String) :
    ∃ w, whois330 s rest = { s with whois_buf := w } := by
  simp only [whois330]
  split
  · exact ⟨s.whois_buf, rfl⟩
  · exact ⟨_, rfl⟩

lemma whois338_shape (s : St) (rest : String) :
    ∃ w, whois338 s rest = { s with whois_buf := w } := by
  simp only [whois338]
  split
  · exact ⟨s.whois_buf, rfl⟩
  · exact ⟨_, rfl⟩

lemma whois318_shape (s : St) (rest : String) :
    ∃ w, (whois318 s rest).1 = { s with whois_buf := w } := by
  simp only [whois318]
  split
  · exact ⟨s.whois_buf, rfl⟩
  · exact ⟨_, rfl⟩

lemma batchLine_shape (s : St) (params : String) :
    ∃ b bn, (batchLine s params).1 = { s with batches := b, batch_names := bn } := by
  simp only [batchLine]
  split
  · exact ⟨s.batches, s.batch_names, rfl⟩
  · split_ifs
    · exact ⟨_, _, rfl⟩
    · exact ⟨_, _, rfl⟩
    · exact ⟨s.batches, s.batch_names, rfl⟩

lemma names353_shape (s : St) (tags : List (String × String)) (rest : String) :
    ∃ bn, (names353 s tags rest).1 = { s with batch_names := bn } := by
  simp only [names353]
  split
  · exact ⟨s.batch_names, rfl⟩
  · split
    · split
      · exact ⟨s.batch_names, rfl⟩
      · exact ⟨_, rfl⟩
    · exact ⟨s.batch_names, rfl⟩

lemma capLS_ne_capEnd : ("CAP LS 302" : String) ≠ "CAP END" := by decide

lemma authPlainLit_ne_capEnd : ("AUTHENTICATE PLAIN" : String) ≠ "CAP END" := by decide

/-- Discharge an `end_cap` obligation against a state with the same
`cap_ended` flag. -/
lemma end_cap_pot_le (p : ServerProfile) (s t : St) (h : t.cap_ended = s.cap_ended) :
    (end_cap p t).2.1.count "CAP END" + capEndPot (end_cap p t).1 ≤ capEndPot s := by
  have h1 := end_cap_capEnd p t
  have h2 : capEndPot t = capEndPot s := by simp [capEndPot, h]
  omega

lemma begin_sasl_capEnd (s t : St) (h : t.cap_ended = s.cap_ended) :
    (begin_sasl t).2.1.count "CAP END" + capEndPot (begin_sasl t).1 ≤ capEndPot s := by
  simp [begin_sasl, capEndPot, List.count_cons, authPlainLit_ne_capEnd, h]

lemma handle_cap_capEnd (p : ServerProfile) (s : St) (subcmd payload : String) :
    (handle_cap p s subcmd payload).2.1.count "CAP END" +
      capEndPot (handle_cap p s subcmd payload).1 ≤ capEndPot s := by
  simp only [handle_cap]
  split_ifs <;>
    first
      | (simp [capEndPot, List.count_cons, capReqLine_ne_capEnd]; done)
      | (apply end_cap_pot_le; simp; done)
      | (apply begin_sasl_capEnd; simp; done)

lemma dispatchB_capEnd (p : ServerProfile) (s : St) (tags : List (String × String))
    (pfx rest_line rest : String) (parts : List String) (cmd params ucmd : String) :
    (dispatchB p s tags pfx rest_line rest parts cmd params ucmd).2.1.count "CAP END" +
      capEndPot (dispatchB p s tags pfx rest_line rest parts cmd params ucmd).1 ≤
      capEndPot s := by
  unfold dispatchB
  split
  · exact handle_cap_capEnd p s _ _
  · by_cases hc : s.cap_negotiating = false ∨ s.cap_ended = true <;>
      simp [hc, capEndPot, join_initial_count_capEnd]
  · obtain ⟨w, hw⟩ := whois311_shape s rest; simp [hw, capEndPot]
  · obtain ⟨w, hw⟩ := whois312_shape s rest; simp [hw, capEndPot]
  · obtain ⟨w, hw⟩ := whois317_shape s rest; simp [hw, capEndPot]
  · obtain ⟨w, hw⟩ := whois319_shape s rest; simp [hw, capEndPot]
  · obtain ⟨w, hw⟩ := whois330_shape s rest; simp [hw, capEndPot]
  · obtain ⟨w, hw⟩ := whois338_shape s rest; simp [hw, capEndPot]
  · obtain ⟨w, hw⟩ := whois318_shape s rest; simp [hw, capEndPot]
  · split
    · simp [capEndPot, List.count_cons, sasl_payload_ne_capEnd]
    · simp [capEndPot]
  · apply end_cap_pot_le
    simp
  · simp [capEndPot]
  · simp [capEndPot]
  · simp [capEndPot]
  · simp [capEndPot]
  · simp [capEndPot]
  · simp [capEndPot]
  · simp [capEndPot]
  · obtain ⟨b, bn, hw⟩ := batchLine_shape s params; simp [hw, capEndPot]
  · obtain ⟨bn, hw⟩ := names353_shape s tags rest; simp [hw, capEndPot]
  · simp [capEndPot]

lemma dispatchA_capEnd (p : ServerProfile) (s : St) (tags : List (String × String))
    (pfx rest_line rest : String) (parts : List String) (cmd params ucmd : String) :
    (dispatchA p s tags pfx rest_line rest parts cmd params ucmd).2.1.count "CAP END" +
      capEndPot (dispatchA p s tags pfx rest_line rest parts cmd params ucmd).1 ≤
      capEndPot s := by
  unfold dispatchA
  split
  · simp [capEndPot]
  · simp [capEndPot]
  · simp [capEndPot]
  · simp [capEndPot]
  · simp [capEndPot]
  · simp [capEndPot]
  · simp [capEndPot]
  · have h := dispatchB_capEnd p s tags pfx rest_line rest parts cmd params ucmd
    simpa using h

lemma handleLine_capEnd (p : ServerProfile) (s : St) (l : String) :
    (handleLine p s l).2.1.count "CAP END" + capEndPot (handleLine p s l).1 ≤
      capEndPot s := by
  simp only [handleLine]
  split
  · simp [capEndPot, List.count_cons, pong_ne_capEnd]
  · exact dispatchA_capEnd p s _ _ _ _ _ _ _ _

lemma stepLine_capEnd (p : ServerProfile) (o : Out) (l : String) :
    (stepLine p o l).sent.count "CAP END" + capEndPot (stepLine p o l).st ≤
      o.sent.count "CAP END" + capEndPot o.st := by
  have h := handleLine_capEnd p o.st l
  simp only [stepLine, List.count_append]
  omega

lemma runFrom_capEnd (p : ServerProfile) :
    ∀ (lines : List String) (o : Out),
      (runFrom p o lines).sent.count "CAP END" + capEndPot (runFrom p o lines).st ≤
        o.sent.count "CAP END" + capEndPot o.st := by
  intro lines
  induction lines with
  | nil => intro o; simp [runFrom]
  | cons l ls ih =>
    intro o
    have h1 := ih (stepLine p o l)
    have h2 := stepLine_capEnd p o l
    have h3 : runFrom p o (l :: ls) = runFrom p (stepLine p o l) ls := rfl
    rw [h3]
    omega

lemma connectSends_count_capEnd (p : ServerProfile) :
    (connectSends p).count "CAP END" = 0 := by
  have h1 : (("CAP LS 302" : String) == "CAP END") = false := by decide
  have h2 : (("NICK " ++ p.nick) == "CAP END") = false :=
    beq_eq_false_iff_ne.mpr (nickLine_ne_capEnd _)
  have h3 : (("USER " ++ (p.user ++ " 0 * :" ++ p.realname)) == "CAP END") = false :=
    beq_eq_false_iff_ne.mpr (userLine_ne_capEnd _)
  simp [connectSends, List.count_cons, h1, h2, h3]



/-- C1 counterexample: a lifecycle receiving a single CAP LS line whose
payload intersects the desired set sends `CAP REQ` and never `CAP END`, so
`CAP END` is not transmitted exactly once for this arrival sequence. -/
theorem c1_counterexample :
    ¬ ((runLines pBase [":s CAP me LS :batch"]).sent.count "CAP END" = 1) := by decide

/-- C1 (amended): over every post-connect run, whatever CAP LS / ACK / NAK
lines and SASL result numerics arrive and in whatever order, the line
`CAP END` is transmitted at most once. -/
theorem c1_cap_end_at_most_once (p : ServerProfile) (lines : List String) :
    (runLines p lines).sent.count "CAP END" ≤ 1 := by
  have h := runFrom_capEnd p lines { st := initSt, sent := connectSends p, evs := [] }
  have h2 := connectSends_count_capEnd p
  have h3 : capEndPot initSt = 1 := rfl
  unfold runLines
  simp only at h
  omega

/-! ## Claim C2 machinery: the single CAP REQ and its content -/


lemma isPrefixOf_self_append (l t : List Char) : l.isPrefixOf (l ++ t) = true := by
  induction l with
  | nil => cases t <;> rfl
  | cons c cs ih => simpa [List.isPrefixOf] using ih

lemma isPrefixOf_front_false {c d : Char} (h : c ≠ d) (cs l : List Char) :
    (c :: cs).isPrefixOf (d :: l) = false := by
  simp [List.isPrefixOf, h]

/-- A line starting with a non-`C` character is not a `CAP REQ` line. -/
lemma isCapReqLine_append (pre : String) (c : Char) (cs : List Char) (x : String)
    (hpre : pre.data = c :: cs) (h : ('C' : Char) ≠ c) : isCapReqLine (pre ++ x) = false := by
  unfold isCapReqLine
  rw [append_data_cons x hpre, show "CAP REQ :".data = 'C' :: "AP REQ :".data from rfl]
  exact isPrefixOf_front_false h _ _

lemma isCapReqLine_pong (x : String) : isCapReqLine ("PONG " ++ x) = false :=
  isCapReqLine_append "PONG " 'P' _ x rfl (by decide)

lemma isCapReqLine_join (ch : String) : isCapReqLine ("JOIN " ++ ch) = false :=
  isCapReqLine_append "JOIN " 'J' _ ch rfl (by decide)

lemma isCapReqLine_nick (x : String) : isCapReqLine ("NICK " ++ x) = false :=
  isCapReqLine_append "NICK " 'N' _ x rfl (by decide)

lemma isCapReqLine_user (x : String) : isCapReqLine ("USER " ++ x) = false :=
  isCapReqLine_append "USER " 'U' _ x rfl (by decide)

lemma isCapReqLine_auth (x : String) : isCapReqLine ("AUTHENTICATE " ++ x) = false :=
  isCapReqLine_append "AUTHENTICATE " 'A' _ x rfl (by decide)

lemma isCapReqLine_capReq (x : String) : isCapReqLine ("CAP REQ :" ++ x) = true := by
  unfold isCapReqLine
  rw [String.data_append]
  exact isPrefixOf_self_append _ _

lemma isCapReqLine_sasl_payload (p : ServerProfile) :
    isCapReqLine (sasl_payload p) = false := by
  obtain ⟨r, hr⟩ := sasl_payload_shape p
  rw [hr]
  exact isCapReqLine_auth r

lemma join_initial_countP_capReq (p : ServerProfile) :
    (join_initial p).countP isCapReqLine = 0 := by
  rw [List.countP_eq_zero]
  unfold join_initial
  intro a ha
  obtain ⟨ch, _, rfl⟩ := List.mem_map.mp ha
  simp [isCapReqLine_join ch]


lemma setInsert_ne_nil (x : String) (l : List String) : setInsert x l ≠ [] := by
  cases l with
  | nil => simp [setInsert]
  | cons y ys =>
    simp only [setInsert]
    split_ifs <;> simp

lemma foldl_setInsert_ne_nil :
    ∀ (xs acc : List String), acc ≠ [] →
      xs.foldl (fun acc x => setInsert x acc) acc ≠ [] := by
  intro xs
  induction xs with
  | nil => intro acc h; simpa
  | cons x xs ih => intro acc _; exact ih _ (setInsert_ne_nil x acc)

lemma setUnion_ne_nil (a : List String) {b : List String} (h : b ≠ []) :
    setUnion a b ≠ [] := by
  cases b with
  | nil => exact absurd rfl h
  | cons x xs => exact foldl_setInsert_ne_nil xs _ (setInsert_ne_nil x a)

lemma end_cap_reqPot_le (p : ServerProfile) (s t : St)
    (h : t.requested_caps = s.requested_caps) :
    (end_cap p t).2.1.countP isCapReqLine + reqPot (end_cap p t).1 ≤ reqPot s := by
  unfold end_cap
  have hce : isCapReqLine "CAP END" = false := by decide
  by_cases h1 : t.cap_ended
  · simp [h1, reqPot, h]
  · by_cases h2 : t.welcome_received <;>
      simp [h1, h2, reqPot, h, List.countP_cons, hce, join_initial_countP_capReq]

lemma begin_sasl_reqPot_le (s t : St) (h : t.requested_caps = s.requested_caps) :
    (begin_sasl t).2.1.countP isCapReqLine + reqPot (begin_sasl t).1 ≤ reqPot s := by
  have hap : isCapReqLine "AUTHENTICATE PLAIN" = false := by decide
  simp [begin_sasl, List.countP_cons, hap, reqPot, h]

lemma handle_cap_capReq (p : ServerProfile) (s : St) (subcmd payload : String) :
    (handle_cap p s subcmd payload).2.1.countP isCapReqLine +
      reqPot (handle_cap p s subcmd payload).1 ≤ reqPot s := by
  simp only [handle_cap]
  split_ifs <;>
    first
      | (apply end_cap_reqPot_le; simp; done)
      | (apply begin_sasl_reqPot_le; simp; done)
      | (simp [reqPot]; done)
      | (rename_i hemit
         have hreq2 : s.requested_caps = [] := hemit.2
         have hne : setUnion ([] : List String)
             (setInter (capWant p) (setUnion s.available_caps (pysplit payload))) ≠ [] := by
           have h0 := setUnion_ne_nil s.requested_caps hemit.1
           rw [hreq2] at h0
           exact h0
         simp [List.countP_cons, isCapReqLine_capReq, reqPot, hne, hreq2]
         done)

lemma dispatchB_capReq (p : ServerProfile) (s : St) (tags : List (String × String))
    (pfx rest_line rest : String) (parts : List String) (cmd params ucmd : String) :
    (dispatchB p s tags pfx rest_line rest parts cmd params ucmd).2.1.countP isCapReqLine +
      reqPot (dispatchB p s tags pfx rest_line rest parts cmd params ucmd).1 ≤
      reqPot s := by
  unfold dispatchB
  split
  · exact handle_cap_capReq p s _ _
  · by_cases hc : s.cap_negotiating = false ∨ s.cap_ended = true <;>
      simp [hc, reqPot, join_initial_countP_capReq]
  · obtain ⟨w, hw⟩ := whois311_shape s rest; simp [hw, reqPot]
  · obtain ⟨w, hw⟩ := whois312_shape s rest; simp [hw, reqPot]
  · obtain ⟨w, hw⟩ := whois317_shape s rest; simp [hw, reqPot]
  · obtain ⟨w, hw⟩ := whois319_shape s rest; simp [hw, reqPot]
  · obtain ⟨w, hw⟩ := whois330_shape s rest; simp [hw, reqPot]
  · obtain ⟨w, hw⟩ := whois338_shape s rest; simp [hw, reqPot]
  · obtain ⟨w, hw⟩ := whois318_shape s rest; simp [hw, reqPot]
  · split
    · simp [reqPot, List.countP_cons, isCapReqLine_sasl_payload]
    · simp [reqPot]
  · apply end_cap_reqPot_le
    simp
  · simp [reqPot]
  · simp [reqPot]
  · simp [reqPot]
  · simp [reqPot]
  · simp [reqPot]
  · simp [reqPot]
  · simp [reqPot]
  · obtain ⟨b, bn, hw⟩ := batchLine_shape s params; simp [hw, reqPot]
  · obtain ⟨bn, hw⟩ := names353_shape s tags rest; simp [hw, reqPot]
  · simp [reqPot]

lemma dispatchA_capReq (p : ServerProfile) (s : St) (tags : List (String × String))
    (pfx rest_line rest : String) (parts : List String) (cmd params ucmd : String) :
    (dispatchA p s tags pfx rest_line rest parts cmd params ucmd).2.1.countP isCapReqLine +
      reqPot (dispatchA p s tags pfx rest_line rest parts cmd params ucmd).1 ≤
      reqPot s := by
  unfold dispatchA
  split
  · simp [reqPot]
  · simp [reqPot]
  · simp [reqPot]
  · simp [reqPot]
  · simp [reqPot]
  · simp [reqPot]
  · simp [reqPot]
  · have h := dispatchB_capReq p s tags pfx rest_line rest parts cmd params ucmd
    simpa using h

lemma handleLine_capReq (p : ServerProfile) (s : St) (l : String) :
    (handleLine p s l).2.1.countP isCapReqLine + reqPot (handleLine p s l).1 ≤
      reqPot s := by
  simp only [handleLine]
  split
  · simp [reqPot, List.countP_cons, isCapReqLine_pong]
  · exact dispatchA_capReq p s _ _ _ _ _ _ _ _

lemma stepLine_capReq (p : ServerProfile) (o : Out) (l : String) :
    (stepLine p o l).sent.countP isCapReqLine + reqPot (stepLine p o l).st ≤
      o.sent.countP isCapReqLine + reqPot o.st := by
  have h := handleLine_capReq p o.st l
  simp only [stepLine, List.countP_append]
  omega

lemma runFrom_capReq (p : ServerProfile) :
    ∀ (lines : List String) (o : Out),
      (runFrom p o lines).sent.countP isCapReqLine + reqPot (runFrom p o lines).st ≤
        o.sent.countP isCapReqLine + reqPot o.st := by
  intro lines
  induction lines with
  | nil => intro o; simp [runFrom]
  | cons l ls ih =>
    intro o
    have h1 := ih (stepLine p o l)
    have h2 := stepLine_capReq p o l
    have h3 : runFrom p o (l :: ls) = runFrom p (stepLine p o l) ls := rfl
    rw [h3]
    omega

lemma connectSends_countP_capReq (p : ServerProfile) :
    (connectSends p).countP isCapReqLine = 0 := by
  have h1 : isCapReqLine "CAP LS 302" = false := by decide
  have h2 := isCapReqLine_nick p.nick
  have h3 := isCapReqLine_user (p.user ++ " 0 * :" ++ p.realname)
  simp only [connectSends, List.countP_cons, List.countP_nil, h1, h2, h3]
  simp

lemma mem_setInsert (x y : String) (l : List String) :
    y ∈ setInsert x l ↔ y = x ∨ y ∈ l := by
  induction l with
  | nil => simp [setInsert]
  | cons z zs ih =>
    simp only [setInsert]
    split_ifs with h1 h2
    · subst h1
      simp only [List.mem_cons]
      try tauto
    · simp only [List.mem_cons]
      try tauto
    · simp only [List.mem_cons, ih]
      try tauto

lemma mem_setUnion (a b : List String) (y : String) :
    y ∈ setUnion a b ↔ y ∈ a ∨ y ∈ b := by
  induction b generalizing a with
  | nil => simp [setUnion]
  | cons x xs ih =>
    have h : setUnion a (x :: xs) = setUnion (setInsert x a) xs := rfl
    rw [h, ih, mem_setInsert]
    simp [List.mem_cons]
    tauto

/-- In the source, `"sasl"` enters the desired set exactly when the profile
has a truthy password; a configured `sasl_user` alone does not. -/
lemma capWant_sasl (p : ServerProfile) :
    "sasl" ∈ capWant p ↔ truthyO p.password = true := by
  unfold capWant
  split_ifs with h
  · simp [h, mem_setInsert]
  · simp only [Bool.not_eq_true] at h
    constructor
    · intro hm
      exact absurd hm (by decide)
    · intro hc
      rw [hc] at h
      cases h



/-- C2 counterexample: with `sasl_user` configured but no password, a CAP LS
advertising exactly `sasl` makes the spec-desired intersection `{sasl}`
non-empty, yet the code leaves `requested` empty and sends no `CAP REQ` at
all (it sends `CAP END` instead), so `requested = desired ∩ available`
fails. -/
theorem c2_counterexample :
    "sasl" ∈ setInter (specDesired pSasl) (setUnion [] (pysplit "sasl")) ∧
    (runLines pSasl [":s CAP me LS :sasl"]).st.requested_caps = [] ∧
    (runLines pSasl [":s CAP me LS :sasl"]).sent.countP isCapReqLine = 0 := by decide

/-- C2 (amended): `CAP REQ` is sent at most once per run; the desired set
contains `"sasl"` iff a password is configured (a `sasl_user` alone does
not enable it); and whenever a CAP LS payload is handled with nothing
requested yet and the intersection `desired ∩ available` non-empty, the
`requested` set becomes exactly that intersection and the single
`CAP REQ` line carries exactly its space-joined, sorted elements. -/
theorem c2_requested_eq_want_inter_available (p : ServerProfile) (lines : List String)
    (s : St) (payload : String) :
    (runLines p lines).sent.countP isCapReqLine ≤ 1 ∧
    ("sasl" ∈ capWant p ↔ truthyO p.password = true) ∧
    (s.requested_caps = [] →
      setInter (capWant p) (setUnion s.available_caps (pysplit payload)) ≠ [] →
      (∀ c, c ∈ (handle_cap p s "LS" payload).1.requested_caps ↔
          c ∈ setInter (capWant p) (setUnion s.available_caps (pysplit payload))) ∧
      (handle_cap p s "LS" payload).2.1 =
        ["CAP REQ :" ++ strJoin " "
          (setInter (capWant p) (setUnion s.available_caps (pysplit payload)))]) := by
  refine ⟨?_, capWant_sasl p, ?_⟩
  · have h := runFrom_capReq p lines { st := initSt, sent := connectSends p, evs := [] }
    have h2 := connectSends_countP_capReq p
    have h3 : reqPot initSt = 1 := rfl
    unfold runLines
    simp only at h
    omega
  · intro hreq hne
    by_cases hp : s.cap_ls_pending = true <;>
      constructor <;>
        simp [handle_cap, hreq, hne, hp, mem_setUnion]

/-! ## Claim C3 machinery: SASL starts only after a qualifying CAP ACK -/


lemma authPlain_ne_pong (x : String) : "AUTHENTICATE PLAIN" ≠ "PONG " ++ x :=
  ne_of_front rfl (append_data_cons x rfl) (by decide)

lemma authPlain_ne_join (ch : String) : "AUTHENTICATE PLAIN" ≠ "JOIN " ++ ch :=
  ne_of_front rfl (append_data_cons ch rfl) (by decide)

lemma authPlain_ne_nick (x : String) : "AUTHENTICATE PLAIN" ≠ "NICK " ++ x :=
  ne_of_front rfl (append_data_cons x rfl) (by decide)

lemma authPlain_ne_user (x : String) : "AUTHENTICATE PLAIN" ≠ "USER " ++ x :=
  ne_of_front rfl (append_data_cons x rfl) (by decide)

lemma authPlain_ne_capReq (x : String) : "AUTHENTICATE PLAIN" ≠ "CAP REQ :" ++ x :=
  ne_of_front rfl (append_data_cons x rfl) (by decide)

lemma authPlain_not_mem_join_initial (p : ServerProfile) :
    "AUTHENTICATE PLAIN" ∉ join_initial p := by
  unfold join_initial
  intro hmem
  obtain ⟨ch, _, he⟩ := List.mem_map.mp hmem
  exact authPlain_ne_join ch he.symm

lemma end_cap_authPlain (p : ServerProfile) (t : St) :
    "AUTHENTICATE PLAIN" ∉ (end_cap p t).2.1 ∧
      (end_cap p t).1.sasl_in_progress = t.sasl_in_progress := by
  unfold end_cap
  by_cases h1 : t.cap_ended
  · simp [h1]
  · by_cases h2 : t.welcome_received <;>
      simp [h1, h2, List.mem_cons, authPlainLit_ne_capEnd, authPlain_not_mem_join_initial]


lemma handle_cap_authPlain (p : ServerProfile) (s : St) (subcmd payload : String) :
    ("AUTHENTICATE PLAIN" ∈ (handle_cap p s subcmd payload).2.1 →
      ackSaslFact p subcmd payload ∨ s.sasl_in_progress = true) ∧
    ((handle_cap p s subcmd payload).1.sasl_in_progress = true →
      s.sasl_in_progress = true ∨ ackSaslFact p subcmd payload) := by
  simp only [handle_cap]
  split_ifs <;>
    first
      | exact ⟨fun hmem => absurd (List.mem_singleton.mp hmem) (authPlain_ne_capReq _),
               fun hs => Or.inl hs⟩
      | exact ⟨fun hmem => absurd hmem (List.not_mem_nil _), fun hs => Or.inl hs⟩
      | (constructor
         · intro hmem
           exact absurd hmem (end_cap_authPlain p _).1
         · intro hs
           rw [(end_cap_authPlain p _).2] at hs
           exact Or.inl hs)
      | (rename_i hack hsasl
         exact ⟨fun _ => Or.inl ⟨hack, hsasl.1, hsasl.2⟩,
                fun _ => Or.inr ⟨hack, hsasl.1, hsasl.2⟩⟩)

lemma dispatchB_authPlain (p : ServerProfile) (s : St) (tags : List (String × String))
    (pfx rest_line rest : String) (parts : List String) (cmd params ucmd : String)
    (Q : Prop)
    (hq : routeB cmd ucmd (hasSub rest_line " :") = BCase.cap →
      ackSaslFact p (pyUpper (parts.getD 2 ""))
        (if hasSub rest " :" = true then splitTail " :" rest else "") → Q) :
    ("AUTHENTICATE PLAIN" ∈ (dispatchB p s tags pfx rest_line rest parts cmd params ucmd).2.1 →
      Q ∨ s.sasl_in_progress = true) ∧
    ((dispatchB p s tags pfx rest_line rest parts cmd params ucmd).1.sasl_in_progress = true →
      s.sasl_in_progress = true ∨ Q) := by
  unfold dispatchB
  split
  · rename_i heq
    have h := handle_cap_authPlain p s (pyUpper (parts.getD 2 ""))
      (if hasSub rest " :" = true then splitTail " :" rest else "")
    constructor
    · intro hmem
      rcases h.1 hmem with hf | hs
      · exact Or.inl (hq heq hf)
      · exact Or.inr hs
    · intro hs
      rcases h.2 hs with hs2 | hf
      · exact Or.inl hs2
      · exact Or.inr (hq heq hf)
  · by_cases hc : s.cap_negotiating = false ∨ s.cap_ended = true
    · refine ⟨fun hmem => ?_, fun hs => Or.inl ?_⟩
      · simp [hc] at hmem
        exact absurd hmem (authPlain_not_mem_join_initial p)
      · simpa [hc] using hs
    · refine ⟨fun hmem => ?_, fun hs => Or.inl ?_⟩
      · simp [hc] at hmem
      · simpa [hc] using hs
  · obtain ⟨w, hw⟩ := whois311_shape s rest
    refine ⟨fun hmem => absurd hmem (List.not_mem_nil _), fun hs => Or.inl ?_⟩
    rw [hw] at hs
    exact hs
  · obtain ⟨w, hw⟩ := whois312_shape s rest
    refine ⟨fun hmem => absurd hmem (List.not_mem_nil _), fun hs => Or.inl ?_⟩
    rw [hw] at hs
    exact hs
  · obtain ⟨w, hw⟩ := whois317_shape s rest
    refine ⟨fun hmem => absurd hmem (List.not_mem_nil _), fun hs => Or.inl ?_⟩
    rw [hw] at hs
    exact hs
  · obtain ⟨w, hw⟩ := whois319_shape s rest
    refine ⟨fun hmem => absurd hmem (List.not_mem_nil _), fun hs => Or.inl ?_⟩
    rw [hw] at hs
    exact hs
  · obtain ⟨w, hw⟩ := whois330_shape s rest
    refine ⟨fun hmem => absurd hmem (List.not_mem_nil _), fun hs => Or.inl ?_⟩
    rw [hw] at hs
    exact hs
  · obtain ⟨w, hw⟩ := whois338_shape s rest
    refine ⟨fun hmem => absurd hmem (List.not_mem_nil _), fun hs => Or.inl ?_⟩
    rw [hw] at hs
    exact hs
  · obtain ⟨w, hw⟩ := whois318_shape s rest
    refine ⟨fun hmem => absurd hmem (List.not_mem_nil _), fun hs => Or.inl ?_⟩
    rw [hw] at hs
    exact hs
  · split
    · rename_i hcond
      exact ⟨fun _ => Or.inr hcond.2.1, fun _ => Or.inl hcond.2.1⟩
    · exact ⟨fun hmem => absurd hmem (List.not_mem_nil _), fun hs => Or.inl hs⟩
  · constructor
    · intro hmem
      exact absurd hmem (end_cap_authPlain p _).1
    · intro hs
      rw [(end_cap_authPlain p _).2] at hs
      cases hs
  · exact ⟨fun hmem => absurd hmem (List.not_mem_nil _), fun hs => Or.inl hs⟩
  · exact ⟨fun hmem => absurd hmem (List.not_mem_nil _), fun hs => Or.inl hs⟩
  · exact ⟨fun hmem => absurd hmem (List.not_mem_nil _), fun hs => Or.inl hs⟩
  · exact ⟨fun hmem => absurd hmem (List.not_mem_nil _), fun hs => Or.inl hs⟩
  · exact ⟨fun hmem => absurd hmem (List.not_mem_nil _), fun hs => Or.inl hs⟩
  · exact ⟨fun hmem => absurd hmem (List.not_mem_nil _), fun hs => Or.inl hs⟩
  · exact ⟨fun hmem => absurd hmem (List.not_mem_nil _), fun hs => Or.inl hs⟩
  · obtain ⟨b, bn, hw⟩ := batchLine_shape s params
    refine ⟨fun hmem => absurd hmem (List.not_mem_nil _), fun hs => Or.inl ?_⟩
    rw [hw] at hs
    exact hs
  · obtain ⟨bn, hw⟩ := names353_shape s tags rest
    refine ⟨fun hmem => absurd hmem (List.not_mem_nil _), fun hs => Or.inl ?_⟩
    rw [hw] at hs
    exact hs
  · exact ⟨fun hmem => absurd hmem (List.not_mem_nil _), fun hs => Or.inl hs⟩

lemma dispatchA_authPlain (p : ServerProfile) (s : St) (tags : List (String × String))
    (pfx rest_line rest : String) (parts : List String) (cmd params ucmd : String)
    (Q : Prop)
    (hq : routeA cmd ucmd = ACase.fall →
      routeB cmd ucmd (hasSub rest_line " :") = BCase.cap →
      ackSaslFact p (pyUpper (parts.getD 2 ""))
        (if hasSub rest " :" = true then splitTail " :" rest else "") → Q) :
    ("AUTHENTICATE PLAIN" ∈ (dispatchA p s tags pfx rest_line rest parts cmd params ucmd).2.1 →
      Q ∨ s.sasl_in_progress = true) ∧
    ((dispatchA p s tags pfx rest_line rest parts cmd params ucmd).1.sasl_in_progress = true →
      s.sasl_in_progress = true ∨ Q) := by
  unfold dispatchA
  split
  · exact ⟨fun hmem => absurd hmem (List.not_mem_nil _), fun hs => Or.inl hs⟩
  · exact ⟨fun hmem => absurd hmem (List.not_mem_nil _), fun hs => Or.inl hs⟩
  · exact ⟨fun hmem => absurd hmem (List.not_mem_nil _), fun hs => Or.inl hs⟩
  · exact ⟨fun hmem => absurd hmem (List.not_mem_nil _), fun hs => Or.inl hs⟩
  · exact ⟨fun hmem => absurd hmem (List.not_mem_nil _), fun hs => Or.inl hs⟩
  · exact ⟨fun hmem => absurd hmem (List.not_mem_nil _), fun hs => Or.inl hs⟩
  · exact ⟨fun hmem => absurd hmem (List.not_mem_nil _), fun hs => Or.inl hs⟩
  · rename_i heqA
    have h := dispatchB_authPlain p s tags pfx rest_line rest parts cmd params ucmd Q
      (fun hcap => hq heqA hcap)
    exact ⟨fun hmem => h.1 (by simpa using hmem), fun hs => h.2 (by simpa using hs)⟩

lemma handleLine_authPlain (p : ServerProfile) (s : St) (l : String) :
    ("AUTHENTICATE PLAIN" ∈ (handleLine p s l).2.1 →
      (capAckSasl l = true ∧ truthyO p.password = true) ∨ s.sasl_in_progress = true) ∧
    ((handleLine p s l).1.sasl_in_progress = true →
      s.sasl_in_progress = true ∨ (capAckSasl l = true ∧ truthyO p.password = true)) := by
  simp only [handleLine]
  split
  · exact ⟨fun hmem => absurd (List.mem_singleton.mp hmem) (authPlain_ne_pong _),
           fun hs => Or.inl hs⟩
  · rename_i hping
    apply dispatchA_authPlain
    intro hfall hcap hfact
    refine ⟨?_, hfact.2.2⟩
    simp only [capAckSasl]
    rw [if_neg hping, hfall, hcap, if_pos hfact.1]
    exact hfact.2.1

lemma stepLine_authPlain (p : ServerProfile) (o : Out) (l : String) :
    ("AUTHENTICATE PLAIN" ∈ (stepLine p o l).sent →
      "AUTHENTICATE PLAIN" ∈ o.sent ∨
        (capAckSasl l = true ∧ truthyO p.password = true) ∨
        o.st.sasl_in_progress = true) ∧
    ((stepLine p o l).st.sasl_in_progress = true →
      o.st.sasl_in_progress = true ∨
        (capAckSasl l = true ∧ truthyO p.password = true)) := by
  have h := handleLine_authPlain p o.st l
  constructor
  · intro hmem
    rcases List.mem_append.mp (by simpa [stepLine] using hmem) with h1 | h2
    · exact Or.inl h1
    · exact Or.inr (h.1 h2)
  · intro hs
    exact h.2 (by simpa [stepLine] using hs)

lemma runFrom_authPlain (p : ServerProfile) (lines : List String) :
    ∀ (ls : List String) (o : Out),
      (∀ x ∈ ls, x ∈ lines) →
      ("AUTHENTICATE PLAIN" ∈ o.sent →
        truthyO p.password = true ∧ ∃ x ∈ lines, capAckSasl x = true) →
      (o.st.sasl_in_progress = true →
        truthyO p.password = true ∧ ∃ x ∈ lines, capAckSasl x = true) →
      ("AUTHENTICATE PLAIN" ∈ (runFrom p o ls).sent →
        truthyO p.password = true ∧ ∃ x ∈ lines, capAckSasl x = true) := by
  intro ls
  induction ls with
  | nil => intro o _ h1 _ hm; exact h1 hm
  | cons l ls2 ih =>
    intro o hsub h1 h2 hm
    have hstep := stepLine_authPlain p o l
    have hl : l ∈ lines := hsub l (List.mem_cons_self l ls2)
    refine ih (stepLine p o l) (fun x hx => hsub x (List.mem_cons_of_mem _ hx)) ?_ ?_ hm
    · intro hmem
      rcases hstep.1 hmem with hold | hfact | hsasl
      · exact h1 hold
      · exact ⟨hfact.2, l, hl, hfact.1⟩
      · exact h2 hsasl
    · intro hs
      rcases hstep.2 hs with hold | hfact
      · exact h2 hold
      · exact ⟨hfact.2, l, hl, hfact.1⟩

lemma authPlain_not_mem_connectSends (p : ServerProfile) :
    "AUTHENTICATE PLAIN" ∉ connectSends p := by
  intro hmem
  simp only [connectSends, List.mem_cons, List.not_mem_nil, or_false] at hmem
  rcases hmem with h | h | h
  · exact absurd h (by decide)
  · exact authPlain_ne_nick p.nick h
  · exact authPlain_ne_user _ h

/-- C3: the line `AUTHENTICATE PLAIN` is transmitted only if some earlier
incoming line was a CAP ACK whose payload contained the token `sasl` and
the profile has a truthy password configured (hence, a fortiori, a password
or sasl_user is configured). -/
theorem c3_sasl_only_after_ack (p : ServerProfile) (lines : List String) :
    "AUTHENTICATE PLAIN" ∈ (runLines p lines).sent →
      truthyO p.password = true ∧ ∃ x ∈ lines, capAckSasl x = true := by
  intro hmem
  refine runFrom_authPlain p lines lines
    { st := initSt, sent := connectSends p, evs := [] }
    (fun x hx => hx) ?_ ?_ hmem
  · intro hmem2
    exact absurd hmem2 (authPlain_not_mem_connectSends p)
  · intro hs
    cases hs

/-- C3 witness: a run with a password configured and a single qualifying
CAP ACK line does transmit `AUTHENTICATE PLAIN`, and the theorem derives
the qualifying facts for it. -/
theorem c3_witness :
    truthyO pPw.password = true ∧ ∃ x ∈ [":s CAP me ACK :sasl"], capAckSasl x = true :=
  c3_sasl_only_after_ack pPw [":s CAP me ACK :sasl"] (by decide)

/-- C2 witness: the amended theorem applied to the base profile, the empty
run, the post-connect state and the payload `batch`. -/
theorem c2_witness :
    (∀ c, c ∈ (handle_cap pBase initSt "LS" "batch").1.requested_caps ↔
        c ∈ setInter (capWant pBase) (setUnion initSt.available_caps (pysplit "batch"))) ∧
    (handle_cap pBase initSt "LS" "batch").2.1 =
      ["CAP REQ :" ++ strJoin " "
        (setInter (capWant pBase) (setUnion initSt.available_caps (pysplit "batch")))] :=
  (c2_requested_eq_want_inter_available pBase [] initSt "batch").2.2 rfl (by decide)

/-! ## Claim C4: the PING fast path -/

/-- C4: the failing input.  On a tag-prefixed PING the reply payload is
taken from `raw` (source line 170) rather than from the tag-stripped
`rest_line`, so the PONG payload is `PING :abc` instead of `:abc`; the
tag-less PING replies correctly.  In both cases nothing is forwarded to any
consumer event callback. -/
theorem c4_ping_payload_bug :
    (handleLine pBase initSt "@time=x PING :abc").2.1 = ["PONG PING :abc"] ∧
    (handleLine pBase initSt "@time=x PING :abc").2.2 = [] ∧
    (handleLine pBase initSt "@time=x PING :abc").1 = initSt ∧
    (handleLine pBase initSt "PING :abc").2.1 = ["PONG :abc"] ∧
    (handleLine pBase initSt "PING :abc").2.2 = [] := by decide

/-! ## Claim C5: close() is idempotent -/

/-- C5: calling `close` twice from any connection state propagates no
exception (both calls return `Except.ok`) and adds at most one `QUIT :bye`
line to the wire in total. -/
theorem c5_close_twice_ok (s : ConnSt) :
    ∃ s1 s2, close s = Except.ok s1 ∧ close s1 = Except.ok s2 ∧
      s2.wire.count "QUIT :bye" ≤ s.wire.count "QUIT :bye" + 1 := by
  cases hw : s.writerLive with
  | none =>
    refine ⟨{ s with stop := true }, { s with stop := true }, ?_, ?_, ?_⟩ <;>
      simp [close, sendW, hw]
  | some b =>
    cases b with
    | false =>
      refine ⟨{ s with stop := true, writerLive := some false },
              { s with stop := true, writerLive := some false }, ?_, ?_, ?_⟩ <;>
        simp [close, sendW, hw]
    | true =>
      refine ⟨⟨true, some false, s.wire ++ ["QUIT :bye"]⟩,
              ⟨true, some false, s.wire ++ ["QUIT :bye"]⟩, ?_, ?_, ?_⟩ <;>
        simp [close, sendW, hw, List.count_append, List.count_cons]

/-! ## Claim C7: WHOIS aggregation at the standard reply lines -/

/-- C7: evaluation at the failing input.  Feeding the standard
311/317/318 WHOIS numerics for nick `alice` produces one whois event, but
keyed by `me` (the first parameter: the client's own nick) with the field
values shifted by one token — `user` holds the queried nick, `host` holds
the username, `idle` is dropped (None) and `signon` holds the idle time —
because every WHOIS handler indexes `parts2 = rest.split()` as if `rest`
did not still contain the numeric itself, contradicting the reply layout
written in the handlers' own comments.  The accumulator entry is deleted
after the single event, as the claim also states. -/
theorem c7_whois_offbyone_bug :
    (runLines pBase [":irc.x 311 me alice auser ahost * :Alice A",
      ":irc.x 317 me alice 42 1697000000 :seconds idle, signon time",
      ":irc.x 318 me alice :End of /WHOIS list."]).evs =
      [Ev.whois "me" [("user", FVal.str "alice"), ("host", FVal.str "auser"),
        ("realname", FVal.str "Alice A"), ("idle", FVal.nat none),
        ("signon", FVal.nat (some 42))]] ∧
    (runLines pBase [":irc.x 311 me alice auser ahost * :Alice A",
      ":irc.x 317 me alice 42 1697000000 :seconds idle, signon time",
      ":irc.x 318 me alice :End of /WHOIS list."]).st.whois_buf = [] := by decide

/-! ## Claim C9: empty-channel guards in the command API -/

/-- C9 counterexample: `set_topic` with a whitespace-only channel is not a
no-op — it still formats and transmits a TOPIC line. -/
theorem c9_counterexample : set_topic_cmd " " "t" ≠ [] := by decide

/-- C9 (amended): when the channel trims to empty, `join` and `part` are
no-ops, while `set_topic` and `set_modes` have no such guard: each still
formats and transmits its wire command, built from the trimmed (hence
empty) channel field. -/
theorem c9_empty_channel_guards (ch topic modes : String) (r : Option String)
    (h : pyStrip ch = "") :
    join_cmd ch = [] ∧ part_cmd ch r = [] ∧
    set_topic_cmd ch topic = ["TOPIC " ++ pyStrip ch ++ " :" ++ topic] ∧
    set_modes_cmd ch modes = ["MODE " ++ pyStrip ch ++ " " ++ modes] ∧
    set_topic_cmd ch topic ≠ [] ∧ set_modes_cmd ch modes ≠ [] := by
  unfold join_cmd part_cmd set_topic_cmd set_modes_cmd
  refine ⟨?_, ?_, rfl, rfl, ?_, ?_⟩ <;> simp [h]

/-- C9 witness: the amended theorem at the whitespace-only channel. -/
theorem c9_witness :
    join_cmd " " = [] ∧ part_cmd " " (some "bye") = [] ∧
    set_topic_cmd " " "t" = ["TOPIC " ++ pyStrip " " ++ " :" ++ "t"] ∧
    set_modes_cmd " " "+o x" = ["MODE " ++ pyStrip " " ++ " " ++ "+o x"] ∧
    set_topic_cmd " " "t" ≠ [] ∧ set_modes_cmd " " "+o x" ≠ [] :=
  c9_empty_channel_guards " " "t" "+o x" (some "bye") (by decide)

/-! ## Claim C10: 318 with an empty accumulator -/

/-- C10: a 318 end-of-WHOIS line whose extracted nick has no accumulator
entry still emits exactly one whois event — with the empty info map — and
removes nothing else from the buffer; the event is not suppressed. -/
theorem c10_whois_empty_info_emitted (s : St) (rest k : String)
    (hlen : 2 ≤ (pysplit rest).length)
    (hk : (pysplit rest).getD 1 "" = k)
    (hbuf : dictGet s.whois_buf k = none) :
    whois318 s rest = ({ s with whois_buf := dictPop s.whois_buf k }, [Ev.whois k []]) := by
  simp only [whois318]
  rw [if_neg (by omega), hk, hbuf]
  rfl

/-- C10 witness: the theorem at a concrete 318 line and the empty buffer. -/
theorem c10_witness :
    whois318 initSt "318 me alice :End of /WHOIS list." =
      ({ initSt with whois_buf := dictPop initSt.whois_buf "me" }, [Ev.whois "me" []]) :=
  c10_whois_empty_info_emitted initSt "318 me alice :End of /WHOIS list." "me"
    (by decide) (by decide) (by decide)

/-! ## Claim C6 machinery: batched NAMES aggregation -/


lemma batchFlush_cons_empty {kv : String × List String} (rest : List (String × List String))
    (he : kv.2.isEmpty = true) : batchFlush (kv :: rest) = batchFlush rest := by
  have h2 : kv.2 = [] := List.isEmpty_iff.mp he
  simp [batchFlush, List.filterMap_cons, h2]

lemma batchFlush_cons_nonempty {kv : String × List String} (rest : List (String × List String))
    (he : kv.2.isEmpty = false) :
    batchFlush (kv :: rest) = Ev.names kv.1 kv.2 :: batchFlush rest := by
  have h2 : kv.2 ≠ [] := by
    intro hh
    rw [hh] at he
    cases he
  simp [batchFlush, List.filterMap_cons, h2]

lemma batchFlush_no_ch (ch : String) :
    ∀ bychan : List (String × List String), ch ∉ bychan.map Prod.fst →
      (batchFlush bychan).filter (isNamesOf ch) = [] := by
  intro bychan
  induction bychan with
  | nil => intro _; rfl
  | cons kv rest ih =>
    intro hch
    simp only [List.map_cons, List.mem_cons] at hch
    push_neg at hch
    have hne : (kv.1 == ch) = false := beq_eq_false_iff_ne.mpr (fun he => hch.1 he.symm)
    by_cases he : kv.2.isEmpty
    · rw [batchFlush_cons_empty rest he]
      exact ih hch.2
    · rw [batchFlush_cons_nonempty rest (by simpa using he), List.filter_cons]
      simp only [isNamesOf, hne, Bool.false_eq_true, if_false, ite_false]
      exact ih hch.2

lemma batchFlush_count_ch (ch : String) (nicks : List String) :
    ∀ bychan : List (String × List String), (bychan.map Prod.fst).Nodup →
      (ch, nicks) ∈ bychan →
      ((batchFlush bychan).filter (isNamesOf ch)).length =
        if nicks.isEmpty then 0 else 1 := by
  intro bychan
  induction bychan with
  | nil => intro _ hm; cases hm
  | cons kv rest ih =>
    intro hnd hm
    rw [List.map_cons, List.nodup_cons] at hnd
    have hnd' := hnd
    rcases List.mem_cons.mp hm with he | hm2
    · have hkv1 : kv.1 = ch := by rw [← he]
      have hkv2 : kv.2 = nicks := by rw [← he]
      have hnotin : ch ∉ rest.map Prod.fst := hkv1 ▸ hnd'.1
      by_cases hemp : kv.2.isEmpty
      · rw [batchFlush_cons_empty rest hemp, batchFlush_no_ch ch rest hnotin]
        rw [hkv2] at hemp
        simp [hemp]
      · rw [batchFlush_cons_nonempty rest (by simpa using hemp), List.filter_cons]
        have ht : isNamesOf ch (Ev.names kv.1 kv.2) = true := by
          simp [isNamesOf, hkv1]
        rw [ht]
        simp only [List.length_cons, batchFlush_no_ch ch rest hnotin, List.length_nil]
        rw [hkv2] at hemp
        simp [hemp]
    · have hch : ch ∈ rest.map Prod.fst := List.mem_map.mpr ⟨(ch, nicks), hm2, rfl⟩
      have hne : (kv.1 == ch) = false :=
        beq_eq_false_iff_ne.mpr (fun he2 => hnd'.1 (he2 ▸ hch))
      by_cases hemp : kv.2.isEmpty
      · rw [batchFlush_cons_empty rest hemp]
        exact ih hnd'.2 hm2
      · rw [batchFlush_cons_nonempty rest (by simpa using hemp), List.filter_cons]
        simp only [isNamesOf, hne, Bool.false_eq_true, if_false, ite_false]
        exact ih hnd'.2 hm2

lemma bnAddInner_keys (ch : String) (ns : List String) :
    ∀ bychan : List (String × List String),
      (bnAddInner bychan ch ns).map Prod.fst =
        if ch ∈ bychan.map Prod.fst then bychan.map Prod.fst
        else bychan.map Prod.fst ++ [ch] := by
  intro bychan
  induction bychan with
  | nil => simp [bnAddInner]
  | cons kv rest ih =>
    simp only [bnAddInner]
    by_cases he : kv.1 = ch
    · simp [he]
    · have hne : ch ≠ kv.1 := fun h2 => he h2.symm
      simp only [he, if_false, ite_false, List.map_cons, ih, List.mem_cons]
      by_cases hm : ch ∈ rest.map Prod.fst <;>
        simp [hm, hne]

/-- C6 counterexample: a 353 line with a batch tag whose trailing name list
is empty buffers the channel under the batch id, yet the closing BATCH
line emits no names event at all for it — a buffered channel yielding zero
events instead of exactly one. -/
theorem c6_counterexample :
    (runLines pBase [":s BATCH +b1 netjoin", "@batch=b1 :s 353 me = #chan"]).st.batch_names =
      [("b1", [("#chan", [])])] ∧
    (runLines pBase [":s BATCH +b1 netjoin", "@batch=b1 :s 353 me = #chan",
      ":s BATCH -b1"]).evs = [] := by decide

/-- C6 (amended): a 353 carrying a batch tag is buffered and emits nothing;
the closing BATCH line flushes the context — exactly one names event per
channel buffered with a non-empty nick list (a channel whose buffered list
is empty yields none), in the context's first-appearance channel order,
buffering preserving existing channel positions and appending new ones —
and then discards the context. -/
theorem c6_batch_names_flush (s : St) (tags : List (String × String))
    (rest params b ch ident : String) (nicks : List String)
    (bychan : List (String × List String)) (toks : List String) :
    ((pysplit (splitHead " :" rest)).getLast? = some ch →
      dictGet tags "batch" = some b → b.data.isEmpty = false →
      names353 s tags rest =
        ({ s with batch_names := (bnAdd s.batch_names b ch
            (if hasSub rest " :" = true then pysplit (splitTail " :" rest) else [])) }, [])) ∧
    (pysplit params = ident :: toks → strStarts ident "+" = false →
      strStarts ident "-" = true →
      batchLine s params =
        ({ s with batch_names := dictPop s.batch_names (strDrop ident 1),
                  batches := dictPop s.batches (strDrop ident 1) },
         batchFlush ((dictGet s.batch_names (strDrop ident 1)).getD []))) ∧
    ((bychan.map Prod.fst).Nodup → (ch, nicks) ∈ bychan →
      ((batchFlush bychan).filter (isNamesOf ch)).length =
        if nicks.isEmpty then 0 else 1) ∧
    ((bnAddInner bychan ch nicks).map Prod.fst =
      if ch ∈ bychan.map Prod.fst then bychan.map Prod.fst
      else bychan.map Prod.fst ++ [ch]) := by
  refine ⟨?_, ?_, batchFlush_count_ch ch nicks bychan, bnAddInner_keys ch nicks bychan⟩
  · intro h1 h2 h3
    simp only [names353]
    rw [h1, h2]
    simp [h3]
  · intro h1 h2 h3
    simp only [batchLine]
    rw [h1]
    simp only [h2, h3, Bool.false_eq_true, if_false, if_true, ite_false, ite_true]
    cases hg : dictGet s.batch_names (strDrop ident 1) <;> simp [hg, batchFlush]

/-- C6 witness: the amended theorem at a concrete buffered 353 line and a
concrete two-channel context. -/
theorem c6_witness :
    names353 initSt [("batch", "b1")] "353 me = #a :n1 n2" =
      ({ initSt with batch_names := (bnAdd initSt.batch_names "b1" "#a"
          (if hasSub "353 me = #a :n1 n2" " :" = true
           then pysplit (splitTail " :" "353 me = #a :n1 n2") else [])) }, []) ∧
    ((batchFlush [("#a", ["n1"]), ("#b", ["n2"])]).filter (isNamesOf "#a")).length =
      if (["n1"] : List String).isEmpty then 0 else 1 :=
  ⟨(c6_batch_names_flush initSt [("batch", "b1")] "353 me = #a :n1 n2" "-b1" "b1" "#a"
      "-b1" ["n1"] [("#a", ["n1"]), ("#b", ["n2"])] []).1 (by decide) (by decide) (by decide),
   (c6_batch_names_flush initSt [("batch", "b1")] "353 me = #a :n1 n2" "-b1" "b1" "#a"
      "-b1" ["n1"] [("#a", ["n1"]), ("#b", ["n2"])] []).2.2.1 (by decide) (by decide)⟩

/-! ## Claim C8 machinery: initial joins gated on 001 and CAP END -/


lemma isJoinLine_append (pre : String) (c : Char) (cs : List Char) (x : String)
    (hpre : pre.data = c :: cs) (h : ('J' : Char) ≠ c) : isJoinLine (pre ++ x) = false := by
  unfold isJoinLine
  rw [append_data_cons x hpre, show "JOIN ".data = 'J' :: "OIN ".data from rfl]
  exact isPrefixOf_front_false h _ _

lemma isJoinLine_join (ch : String) : isJoinLine ("JOIN " ++ ch) = true := by
  unfold isJoinLine
  rw [String.data_append]
  exact isPrefixOf_self_append _ _

lemma isJoinLine_pong (x : String) : isJoinLine ("PONG " ++ x) = false :=
  isJoinLine_append "PONG " 'P' _ x rfl (by decide)

lemma isJoinLine_capReq (x : String) : isJoinLine ("CAP REQ :" ++ x) = false :=
  isJoinLine_append "CAP REQ :" 'C' _ x rfl (by decide)

lemma isJoinLine_nick (x : String) : isJoinLine ("NICK " ++ x) = false :=
  isJoinLine_append "NICK " 'N' _ x rfl (by decide)

lemma isJoinLine_user (x : String) : isJoinLine ("USER " ++ x) = false :=
  isJoinLine_append "USER " 'U' _ x rfl (by decide)

lemma isJoinLine_capEnd : isJoinLine "CAP END" = false := by decide

lemma isJoinLine_capLS : isJoinLine "CAP LS 302" = false := by decide

lemma isJoinLine_authPlain : isJoinLine "AUTHENTICATE PLAIN" = false := by decide

lemma isJoinLine_sasl_payload (p : ServerProfile) : isJoinLine (sasl_payload p) = false := by
  obtain ⟨r, hr⟩ := sasl_payload_shape p
  rw [hr]
  exact isJoinLine_append "AUTHENTICATE " 'A' _ r rfl (by decide)

lemma join_initial_any (p : ServerProfile) (hch : p.channels ≠ []) :
    (join_initial p).any isJoinLine = true := by
  cases hc : p.channels with
  | nil => exact absurd hc hch
  | cons c cs => simp [join_initial, hc, isJoinLine_join]

lemma end_cap_joins (p : ServerProfile) (t : St) :
    (end_cap p t).1.cap_negotiating = t.cap_negotiating ∧
    (end_cap p t).1.welcome_received = t.welcome_received ∧
    (end_cap p t).1.cap_ended = true ∧
    ((end_cap p t).2.1.any isJoinLine = true → t.welcome_received = true) ∧
    (p.channels ≠ [] → t.welcome_received = true → t.cap_ended = false →
      (end_cap p t).2.1.any isJoinLine = true) := by
  unfold end_cap
  by_cases h1 : t.cap_ended
  · refine ⟨by simp [h1], by simp [h1], by simp [h1], ?_, ?_⟩
    · intro hany
      exfalso
      simp [h1] at hany
    · intro _ _ hend
      exact absurd h1 (by simp [hend])
  · by_cases h2 : t.welcome_received
    · refine ⟨by simp [h1, h2], by simp [h1, h2], by simp [h1, h2], ?_, ?_⟩
      · intro _
        exact h2
      · intro hch _ _
        simp [h1, h2, List.any_cons, isJoinLine_capEnd, join_initial_any p hch]
    · refine ⟨by simp [h1, h2], by simp [h1, h2], by simp [h1, h2], ?_, ?_⟩
      · intro hany
        exfalso
        simp [h1, h2, List.any_cons, isJoinLine_capEnd] at hany
      · intro _ hw _
        exact absurd hw (by simpa using h2)

/-- Adaptation of `end_cap_joins` across a state update that preserves the
three negotiation flags. -/
lemma end_cap_joins_of (p : ServerProfile) (s t : St)
    (hn : t.cap_negotiating = s.cap_negotiating)
    (hw : t.welcome_received = s.welcome_received)
    (he : t.cap_ended = s.cap_ended) :
    (end_cap p t).1.cap_negotiating = s.cap_negotiating ∧
    (s.welcome_received = true → (end_cap p t).1.welcome_received = true) ∧
    (s.cap_ended = true → (end_cap p t).1.cap_ended = true) ∧
    ((end_cap p t).2.1.any isJoinLine = true →
      (end_cap p t).1.welcome_received = true ∧ (end_cap p t).1.cap_ended = true) ∧
    (p.channels ≠ [] → ¬(s.welcome_received = true ∧ s.cap_ended = true) →
      (end_cap p t).1.welcome_received = true → (end_cap p t).1.cap_ended = true →
      (end_cap p t).2.1.any isJoinLine = true) := by
  obtain ⟨e1, e2, e3, e4, e5⟩ := end_cap_joins p t
  refine ⟨e1.trans hn, ?_, fun _ => e3, ?_, ?_⟩
  · intro hw2
    rw [e2, hw, hw2]
  · intro hany
    exact ⟨by rw [e2]; exact e4 hany, e3⟩
  · intro hch hnb hw2 _
    have htw : t.welcome_received = true := by rw [← e2]; exact hw2
    have hsw : s.welcome_received = true := by rw [← hw]; exact htw
    have hse : s.cap_ended = false := by
      cases hval : s.cap_ended
      · rfl
      · exact absurd ⟨hsw, hval⟩ hnb
    exact e5 hch htw (he.trans hse)

lemma handle_cap_joins (p : ServerProfile) (s : St) (subcmd payload : String) :
    (handle_cap p s subcmd payload).1.cap_negotiating = s.cap_negotiating ∧
    (s.welcome_received = true → (handle_cap p s subcmd payload).1.welcome_received = true) ∧
    (s.cap_ended = true → (handle_cap p s subcmd payload).1.cap_ended = true) ∧
    ((handle_cap p s subcmd payload).2.1.any isJoinLine = true →
      (handle_cap p s subcmd payload).1.welcome_received = true ∧
      (handle_cap p s subcmd payload).1.cap_ended = true) ∧
    (p.channels ≠ [] → ¬(s.welcome_received = true ∧ s.cap_ended = true) →
      (handle_cap p s subcmd payload).1.welcome_received = true →
      (handle_cap p s subcmd payload).1.cap_ended = true →
      (handle_cap p s subcmd payload).2.1.any isJoinLine = true) := by
  simp only [handle_cap]
  split_ifs <;>
    first
      | (apply end_cap_joins_of <;> simp)
      | (refine ⟨rfl, fun h => h, fun h => h, ?_, ?_⟩
         · intro hany
           exfalso
           simp [List.any_cons, List.any_nil, isJoinLine_capReq, begin_sasl,
             isJoinLine_authPlain] at hany
         · intro hch hnb hw2 he2
           exact absurd ⟨hw2, he2⟩ hnb)

lemma dispatchB_joins (p : ServerProfile) (s : St) (tags : List (String × String))
    (pfx rest_line rest : String) (parts : List String) (cmd params ucmd : String)
    (hneg : s.cap_negotiating = true) :
    (dispatchB p s tags pfx rest_line rest parts cmd params ucmd).1.cap_negotiating =
      s.cap_negotiating ∧
    (s.welcome_received = true →
      (dispatchB p s tags pfx rest_line rest parts cmd params ucmd).1.welcome_received = true) ∧
    (s.cap_ended = true →
      (dispatchB p s tags pfx rest_line rest parts cmd params ucmd).1.cap_ended = true) ∧
    ((dispatchB p s tags pfx rest_line rest parts cmd params ucmd).2.1.any isJoinLine = true →
      (dispatchB p s tags pfx rest_line rest parts cmd params ucmd).1.welcome_received = true ∧
      (dispatchB p s tags pfx rest_line rest parts cmd params ucmd).1.cap_ended = true) ∧
    (p.channels ≠ [] → ¬(s.welcome_received = true ∧ s.cap_ended = true) →
      (dispatchB p s tags pfx rest_line rest parts cmd params ucmd).1.welcome_received = true →
      (dispatchB p s tags pfx rest_line rest parts cmd params ucmd).1.cap_ended = true →
      (dispatchB p s tags pfx rest_line rest parts cmd params ucmd).2.1.any isJoinLine = true) := by
  unfold dispatchB
  split
  · exact handle_cap_joins p s _ _
  · by_cases hc : s.cap_negotiating = false ∨ s.cap_ended = true
    · have hend : s.cap_ended = true := by
        rcases hc with h | h
        · rw [hneg] at h
          cases h
        · exact h
      refine ⟨by simp [hc], by simp [hc], by simp [hc], ?_, ?_⟩
      · intro _
        constructor
        · simp [hc]
        · simp [hc, hend]
      · intro hch hnb _ _
        simp [hc, join_initial_any p hch]
    · refine ⟨by simp [hc], by simp [hc], ?_, ?_, ?_⟩
      · intro hend
        exact absurd (Or.inr hend) hc
      · intro hany
        exfalso
        simp [hc] at hany
      · intro _ _ _ hend
        have : s.cap_ended = true := by simpa [hc] using hend
        exact absurd (Or.inr this) hc
  · obtain ⟨w, hw⟩ := whois311_shape s rest
    rw [hw]
    refine ⟨rfl, fun h => h, fun h => h, ?_, fun _ hnb hw2 he2 => absurd ⟨hw2, he2⟩ hnb⟩
    intro hany
    exact absurd hany (by simp)
  · obtain ⟨w, hw⟩ := whois312_shape s rest
    rw [hw]
    refine ⟨rfl, fun h => h, fun h => h, ?_, fun _ hnb hw2 he2 => absurd ⟨hw2, he2⟩ hnb⟩
    intro hany
    exact absurd hany (by simp)
  · obtain ⟨w, hw⟩ := whois317_shape s rest
    rw [hw]
    refine ⟨rfl, fun h => h, fun h => h, ?_, fun _ hnb hw2 he2 => absurd ⟨hw2, he2⟩ hnb⟩
    intro hany
    exact absurd hany (by simp)
  · obtain ⟨w, hw⟩ := whois319_shape s rest
    rw [hw]
    refine ⟨rfl, fun h => h, fun h => h, ?_, fun _ hnb hw2 he2 => absurd ⟨hw2, he2⟩ hnb⟩
    intro hany
    exact absurd hany (by simp)
  · obtain ⟨w, hw⟩ := whois330_shape s rest
    rw [hw]
    refine ⟨rfl, fun h => h, fun h => h, ?_, fun _ hnb hw2 he2 => absurd ⟨hw2, he2⟩ hnb⟩
    intro hany
    exact absurd hany (by simp)
  · obtain ⟨w, hw⟩ := whois338_shape s rest
    rw [hw]
    refine ⟨rfl, fun h => h, fun h => h, ?_, fun _ hnb hw2 he2 => absurd ⟨hw2, he2⟩ hnb⟩
    intro hany
    exact absurd hany (by simp)
  · obtain ⟨w, hw⟩ := whois318_shape s rest
    rw [hw]
    refine ⟨rfl, fun h => h, fun h => h, ?_, fun _ hnb hw2 he2 => absurd ⟨hw2, he2⟩ hnb⟩
    intro hany
    exact absurd hany (by simp)
  · split
    · refine ⟨rfl, fun h => h, fun h => h, ?_, fun _ hnb hw2 he2 => absurd ⟨hw2, he2⟩ hnb⟩
      intro hany
      exfalso
      simp [List.any_cons, List.any_nil, isJoinLine_sasl_payload] at hany
    · exact ⟨rfl, fun h => h, fun h => h,
        fun hany => absurd hany (by simp),
        fun _ hnb hw2 he2 => absurd ⟨hw2, he2⟩ hnb⟩
  · apply end_cap_joins_of <;> simp
  · exact ⟨rfl, fun h => h, fun h => h, fun hany => absurd hany (by simp),
      fun _ hnb hw2 he2 => absurd ⟨hw2, he2⟩ hnb⟩
  · exact ⟨rfl, fun h => h, fun h => h, fun hany => absurd hany (by simp),
      fun _ hnb hw2 he2 => absurd ⟨hw2, he2⟩ hnb⟩
  · exact ⟨rfl, fun h => h, fun h => h, fun hany => absurd hany (by simp),
      fun _ hnb hw2 he2 => absurd ⟨hw2, he2⟩ hnb⟩
  · exact ⟨rfl, fun h => h, fun h => h, fun hany => absurd hany (by simp),
      fun _ hnb hw2 he2 => absurd ⟨hw2, he2⟩ hnb⟩
  · exact ⟨rfl, fun h => h, fun h => h, fun hany => absurd hany (by simp),
      fun _ hnb hw2 he2 => absurd ⟨hw2, he2⟩ hnb⟩
  · exact ⟨rfl, fun h => h, fun h => h, fun hany => absurd hany (by simp),
      fun _ hnb hw2 he2 => absurd ⟨hw2, he2⟩ hnb⟩
  · exact ⟨rfl, fun h => h, fun h => h, fun hany => absurd hany (by simp),
      fun _ hnb hw2 he2 => absurd ⟨hw2, he2⟩ hnb⟩
  · obtain ⟨b, bn, hw⟩ := batchLine_shape s params
    rw [hw]
    refine ⟨rfl, fun h => h, fun h => h, ?_, fun _ hnb hw2 he2 => absurd ⟨hw2, he2⟩ hnb⟩
    intro hany
    exact absurd hany (by simp)
  · obtain ⟨bn, hw⟩ := names353_shape s tags rest
    rw [hw]
    refine ⟨rfl, fun h => h, fun h => h, ?_, fun _ hnb hw2 he2 => absurd ⟨hw2, he2⟩ hnb⟩
    intro hany
    exact absurd hany (by simp)
  · exact ⟨rfl, fun h => h, fun h => h, fun hany => absurd hany (by simp),
      fun _ hnb hw2 he2 => absurd ⟨hw2, he2⟩ hnb⟩

lemma dispatchA_joins (p : ServerProfile) (s : St) (tags : List (String × String))
    (pfx rest_line rest : String) (parts : List String) (cmd params ucmd : String)
    (hneg : s.cap_negotiating = true) :
    (dispatchA p s tags pfx rest_line rest parts cmd params ucmd).1.cap_negotiating =
      s.cap_negotiating ∧
    (s.welcome_received = true →
      (dispatchA p s tags pfx rest_line rest parts cmd params ucmd).1.welcome_received = true) ∧
    (s.cap_ended = true →
      (dispatchA p s tags pfx rest_line rest parts cmd params ucmd).1.cap_ended = true) ∧
    ((dispatchA p s tags pfx rest_line rest parts cmd params ucmd).2.1.any isJoinLine = true →
      (dispatchA p s tags pfx rest_line rest parts cmd params ucmd).1.welcome_received = true ∧
      (dispatchA p s tags pfx rest_line rest parts cmd params ucmd).1.cap_ended = true) ∧
    (p.channels ≠ [] → ¬(s.welcome_received = true ∧ s.cap_ended = true) →
      (dispatchA p s tags pfx rest_line rest parts cmd params ucmd).1.welcome_received = true →
      (dispatchA p s tags pfx rest_line rest parts cmd params ucmd).1.cap_ended = true →
      (dispatchA p s tags pfx rest_line rest parts cmd params ucmd).2.1.any isJoinLine = true) := by
  unfold dispatchA
  split
  · exact ⟨rfl, fun h => h, fun h => h, fun hany => absurd hany (by simp),
      fun _ hnb hw2 he2 => absurd ⟨hw2, he2⟩ hnb⟩
  · exact ⟨rfl, fun h => h, fun h => h, fun hany => absurd hany (by simp),
      fun _ hnb hw2 he2 => absurd ⟨hw2, he2⟩ hnb⟩
  · exact ⟨rfl, fun h => h, fun h => h, fun hany => absurd hany (by simp),
      fun _ hnb hw2 he2 => absurd ⟨hw2, he2⟩ hnb⟩
  · exact ⟨rfl, fun h => h, fun h => h, fun hany => absurd hany (by simp),
      fun _ hnb hw2 he2 => absurd ⟨hw2, he2⟩ hnb⟩
  · exact ⟨rfl, fun h => h, fun h => h, fun hany => absurd hany (by simp),
      fun _ hnb hw2 he2 => absurd ⟨hw2, he2⟩ hnb⟩
  · exact ⟨rfl, fun h => h, fun h => h, fun hany => absurd hany (by simp),
      fun _ hnb hw2 he2 => absurd ⟨hw2, he2⟩ hnb⟩
  · exact ⟨rfl, fun h => h, fun h => h, fun hany => absurd hany (by simp),
      fun _ hnb hw2 he2 => absurd ⟨hw2, he2⟩ hnb⟩
  · obtain ⟨d1, d2, d3, d4, d5⟩ :=
      dispatchB_joins p s tags pfx rest_line rest parts cmd params ucmd hneg
    refine ⟨by simpa using d1, by simpa using d2, by simpa using d3, ?_, ?_⟩
    · intro hany
      have h := d4 (by simpa using hany)
      exact ⟨by simpa using h.1, by simpa using h.2⟩
    · intro hch hnb hw2 he2
      have h := d5 hch hnb (by simpa using hw2) (by simpa using he2)
      simpa using h

lemma handleLine_joins (p : ServerProfile) (s : St) (l : String)
    (hneg : s.cap_negotiating = true) :
    (handleLine p s l).1.cap_negotiating = s.cap_negotiating ∧
    (s.welcome_received = true → (handleLine p s l).1.welcome_received = true) ∧
    (s.cap_ended = true → (handleLine p s l).1.cap_ended = true) ∧
    ((handleLine p s l).2.1.any isJoinLine = true →
      (handleLine p s l).1.welcome_received = true ∧
      (handleLine p s l).1.cap_ended = true) ∧
    (p.channels ≠ [] → ¬(s.welcome_received = true ∧ s.cap_ended = true) →
      (handleLine p s l).1.welcome_received = true →
      (handleLine p s l).1.cap_ended = true →
      (handleLine p s l).2.1.any isJoinLine = true) := by
  simp only [handleLine]
  split
  · refine ⟨rfl, fun h => h, fun h => h, ?_, fun _ hnb hw2 he2 => absurd ⟨hw2, he2⟩ hnb⟩
    intro hany
    exfalso
    simp [List.any_cons, List.any_nil, isJoinLine_pong] at hany
  · exact dispatchA_joins p s _ _ _ _ _ _ _ _ hneg

lemma stepLine_joins (p : ServerProfile) (o : Out) (l : String)
    (hneg : o.st.cap_negotiating = true) (hch : p.channels ≠ [])
    (hiff : o.sent.any isJoinLine = true ↔
      (o.st.welcome_received = true ∧ o.st.cap_ended = true)) :
    (stepLine p o l).st.cap_negotiating = true ∧
    ((stepLine p o l).sent.any isJoinLine = true ↔
      ((stepLine p o l).st.welcome_received = true ∧
        (stepLine p o l).st.cap_ended = true)) := by
  obtain ⟨h1, h2, h3, h4, h5⟩ := handleLine_joins p o.st l hneg
  constructor
  · rw [show (stepLine p o l).st = (handleLine p o.st l).1 from rfl, h1]
    exact hneg
  · rw [show (stepLine p o l).st = (handleLine p o.st l).1 from rfl,
        show (stepLine p o l).sent = o.sent ++ (handleLine p o.st l).2.1 from rfl,
        List.any_append]
    constructor
    · intro hany
      rw [Bool.or_eq_true] at hany
      rcases hany with hold | hnew
      · obtain ⟨hw, he⟩ := hiff.mp hold
        exact ⟨h2 hw, h3 he⟩
      · exact h4 hnew
    · rintro ⟨hw, he⟩
      by_cases hold : o.st.welcome_received = true ∧ o.st.cap_ended = true
      · rw [Bool.or_eq_true]
        exact Or.inl (hiff.mpr hold)
      · rw [Bool.or_eq_true]
        exact Or.inr (h5 hch hold hw he)

lemma runFrom_joins (p : ServerProfile) (hch : p.channels ≠ []) :
    ∀ (ls : List String) (o : Out), o.st.cap_negotiating = true →
      (o.sent.any isJoinLine = true ↔
        (o.st.welcome_received = true ∧ o.st.cap_ended = true)) →
      ((runFrom p o ls).sent.any isJoinLine = true ↔
        ((runFrom p o ls).st.welcome_received = true ∧
          (runFrom p o ls).st.cap_ended = true)) := by
  intro ls
  induction ls with
  | nil => intro o _ hiff; exact hiff
  | cons l ls2 ih =>
    intro o hneg hiff
    obtain ⟨hn2, hiff2⟩ := stepLine_joins p o l hneg hch hiff
    exact ih (stepLine p o l) hn2 hiff2

lemma connectSends_any_join (p : ServerProfile) :
    (connectSends p).any isJoinLine = false := by
  simp [connectSends, List.any_cons, isJoinLine_capLS, isJoinLine_nick, isJoinLine_user]

/-- C8: with at least one configured channel, one or more initial JOIN
commands have been transmitted by the end of a run exactly when both the
001 welcome has been received and CAP END has been sent (whichever arrived
first); moreover, at any step from any reachable negotiation state, a step
that transmits a JOIN ends with both conditions true — joins never occur
while either condition is still false. -/
theorem c8_joins_iff_welcome_and_cap_end (p : ServerProfile) (lines : List String)
    (hch : p.channels ≠ []) :
    ((runLines p lines).sent.any isJoinLine = true ↔
      ((runLines p lines).st.welcome_received = true ∧
        (runLines p lines).st.cap_ended = true)) ∧
    (∀ (s : St) (l : String), s.cap_negotiating = true →
      (handleLine p s l).2.1.any isJoinLine = true →
      (handleLine p s l).1.welcome_received = true ∧
        (handleLine p s l).1.cap_ended = true) := by
  constructor
  · refine runFrom_joins p hch lines { st := initSt, sent := connectSends p, evs := [] } rfl ?_
    constructor
    · intro hany
      rw [show ({ st := initSt, sent := connectSends p, evs := [] } : Out).sent =
        connectSends p from rfl, connectSends_any_join] at hany
      cases hany
    · rintro ⟨hw, _⟩
      cases hw
  · intro s l hneg
    exact (handleLine_joins p s l hneg).2.2.2.1

/-- C8 witness: a run receiving an empty-intersection CAP LS (ending
negotiation) and then 001 does transmit the initial JOIN. -/
theorem c8_witness :
    (runLines pBase [":s CAP me LS :x", ":s 001 me :hi"]).sent.any isJoinLine = true :=
  (c8_joins_iff_welcome_and_cap_end pBase [":s CAP me LS :x", ":s 001 me :hi"]
    (by decide)).1.mpr (by decide)

end DeadHop
